import Mathlib

/-!
Verification development for the_grid's indicator engine.

The Rust sources under `src/` are shallowly embedded here:
prices and other `f64`/`f32` quantities are modelled over `ℚ`,
millisecond timestamps over `Int`, stateful methods as explicit
state-passing functions, and the wall clock (`now_millis`) as an
explicit `now : Int` argument at every point where the source calls it.
A lookup failure that the source turns into a panic (`unwrap`) is
modelled as `Option.none`.
-/

namespace TheGrid

/-- Timeframe enumeration from `src/types/timeframe.rs`. -/
inductive Timeframe
  | M1
  | M5
  | M15
  | M30
  | H1
  | H4
  | D1
deriving DecidableEq, Repr

/-- Window length in minutes, from `Timeframe::window_minutes`. -/
def Timeframe.window_minutes : Timeframe → Nat
  | .M1 => 1
  | .M5 => 5
  | .M15 => 15
  | .M30 => 30
  | .H1 => 60
  | .H4 => 4 * 60
  | .D1 => 24 * 60

/-- Window length in milliseconds, from `Timeframe::window_millis`. -/
def Timeframe.window_millis : Timeframe → Int
  | .M1 => 60000
  | .M5 => 5 * 60000
  | .M15 => 15 * 60000
  | .M30 => 30 * 60000
  | .H1 => 60 * 60000
  | .H4 => 4 * 60 * 60000
  | .D1 => 24 * 60 * 60000

/-- Largest multiple of the window not past `now_ms`, from
`Timeframe::nearest_ms`.  Rust's `%` on `i64` is truncated remainder,
which is `Int.tmod`. -/
def Timeframe.nearest_ms (tf : Timeframe) (now_ms : Int) : Int :=
  now_ms - Int.tmod now_ms tf.window_millis

/-- Kline source enumeration from `src/types/mod.rs`. -/
inductive KlineSource
  | Open
  | High
  | Low
  | Close
deriving DecidableEq, Repr

/-- One candle, from `struct Kline` in `src/types/mod.rs`; `f64`
fields are modelled over `ℚ`.  The Rust field `open` is a Lean
keyword, hence `open_`. -/
structure Kline where
  open_ : ℚ
  high : ℚ
  low : ℚ
  close : ℚ
  volume : ℚ
  open_time : Int
  closed : Bool
deriving DecidableEq, Repr

/-- Bounded FIFO from `src/types/ring_buffer.rs`, backed by a list
(front at the head, back at the tail like the `VecDeque`). -/
structure RingBuffer (α : Type) where
  buffer : List α
  capacity : Nat
deriving DecidableEq, Repr

namespace RingBuffer

/-- Constructor from `RingBuffer::new`: capacity clamped to at least 1. -/
def new (α : Type) (capacity : Nat) : RingBuffer α :=
  ⟨[], max capacity 1⟩

def len (r : RingBuffer α) : Nat :=
  r.buffer.length

/-- Push from `RingBuffer::push`: evicts the oldest element when full
(the evicted value is ignored by every caller in the sources). -/
def push (r : RingBuffer α) (item : α) : RingBuffer α :=
  let buf := if r.buffer.length ≥ r.capacity then r.buffer.tail else r.buffer
  { r with buffer := buf ++ [item] }

/-- Overwrite the tail without changing the length, from
`RingBuffer::replace_last`; a no-op on an empty buffer. -/
def replace_last (r : RingBuffer α) (item : α) : RingBuffer α :=
  if r.buffer.isEmpty then r else { r with buffer := r.buffer.dropLast ++ [item] }

def front (r : RingBuffer α) : Option α :=
  r.buffer.head?

def back (r : RingBuffer α) : Option α :=
  r.buffer.getLast?

/-- Iterate all but the final element, from `RingBuffer::iter_without_last`. -/
def iter_without_last (r : RingBuffer α) : List α :=
  r.buffer.dropLast

def clear (r : RingBuffer α) : RingBuffer α :=
  { r with buffer := [] }

/-- Retain by predicate on `open_time`, from
`RingBuffer::<Kline>::retain_by_open_time`. -/
def retain_by_open_time (r : RingBuffer Kline) (p : Int → Bool) : RingBuffer Kline :=
  { r with buffer := r.buffer.filter (fun b => p b.open_time) }

end RingBuffer

/-- Indicator discriminant from `src/indicators/mod.rs`. -/
inductive IndicatorName
  | Rsi
  | Volatility
deriving DecidableEq, Repr

/-- History-bundle entry from `struct KlineHist` in
`src/message_bus/engine_bus.rs`. -/
structure KlineHist where
  pair : String
  indicator : IndicatorName
  indicator_tf : Timeframe
  hist_1m : List Kline
  hist_tf : List Kline
deriving Repr

/-- Lookup of a bar by open time in a list that the source collects
into a `HashMap` keyed by `open_time`; with duplicate keys the later
entry overwrites the earlier one, so the last match wins. -/
def lookupByOpen (bars : List Kline) (t : Int) : Option Kline :=
  (bars.filter (fun b => b.open_time = t)).getLast?

/-- Calculator stage from `enum Stage` (identical in `rsi.rs` and
`volatility.rs`). -/
inductive Stage
  | New
  | WarmUp
  | Ready
deriving DecidableEq, Repr

/-- Previous-period RSI scalars, from `struct PreviousBar` in
`src/indicators/rsi.rs`. -/
structure PreviousBar where
  close : ℚ
  avg_gain : ℚ
  avg_loss : ℚ
deriving DecidableEq, Repr

/-- Closed-bar aggregate of the RSI calculator, from
`struct BarAggregation` in `src/indicators/rsi.rs`. -/
structure RsiBarAggregation where
  open_ : ℚ
  high : ℚ
  low : ℚ
  close : ℚ
  volume : ℚ
deriving DecidableEq, Repr

/-- RSI calculator state, from `struct Rsi` in `src/indicators/rsi.rs`. -/
structure Rsi where
  stage : Stage
  pair : String
  tf : Timeframe
  period : Nat
  buffer : RingBuffer Kline
  window_1m_bars : Option (RingBuffer Kline)
  aggr_closed_bars : Option RsiBarAggregation
  previous_bar : Option PreviousBar
  value : Option ℚ
deriving Repr

namespace Rsi

/-- Constructor from `Rsi::new`. -/
def new (period : Nat) (tf : Timeframe) (pair : String) : Rsi :=
  { stage := Stage.New
    pair := pair
    tf := tf
    period := period
    buffer := RingBuffer.new Kline 10
    window_1m_bars := none
    aggr_closed_bars := none
    previous_bar := none
    value := none }

/-- One Wilder step of the previous-period scalars at a period
rollover, from `Rsi::update_previous_bar_from_last`. -/
def update_previous_bar_from_last (s : Rsi) (last : Kline) : Rsi :=
  match s.previous_bar with
  | none => s
  | some prev =>
    let diff := last.close - prev.close
    let gain := if diff > 0 then diff else 0
    let loss := if diff < 0 then -diff else 0
    let period : ℚ := s.period
    let avg_gain := (prev.avg_gain * (period - 1) + gain) / period
    let avg_loss := (prev.avg_loss * (period - 1) + loss) / period
    { s with previous_bar := some ⟨last.close, avg_gain, avg_loss⟩ }

/-- Aggregate of all window bars but the last, from `Rsi::set_aggregate`
(no wall-clock use in the RSI variant). -/
def set_aggregate (s : Rsi) : Rsi :=
  if s.tf = Timeframe.M1 then
    { s with aggr_closed_bars := none }
  else
    match s.window_1m_bars with
    | none => { s with aggr_closed_bars := none }
    | some window =>
      match window.iter_without_last with
      | [] => { s with aggr_closed_bars := none }
      | first_bar :: bars =>
        let init : RsiBarAggregation :=
          ⟨first_bar.open_, first_bar.high, first_bar.low, first_bar.close, first_bar.volume⟩
        let aggr := bars.foldl (fun (a : RsiBarAggregation) bar =>
          { a with
            high := if bar.high > a.high then bar.high else a.high
            low := if bar.low < a.low then bar.low else a.low
            close := bar.close
            volume := a.volume + bar.volume }) init
        { s with aggr_closed_bars := some aggr }

/-- Window maintenance on a live 1m bar, from `Rsi::update_window`;
`now` stands for the source's `now_millis()` call. -/
def update_window (s : Rsi) (now : Int) (bar : Kline) : Rsi :=
  let current_tf_open := s.tf.nearest_ms now
  match s.window_1m_bars with
  | none => s
  | some window =>
    match window.back with
    | none => { s with window_1m_bars := some (window.push bar) }
    | some last =>
      if last.open_time = bar.open_time then
        { s with window_1m_bars := some (window.replace_last bar) }
      else if last.open_time > bar.open_time then
        s
      else
        let trim := (window.front.map (fun first => decide (first.open_time < current_tf_open))).getD false
        let window' := if trim then window.retain_by_open_time (fun ts => ts ≥ current_tf_open) else window
        let s' := { s with window_1m_bars := some (window'.push bar) }
        let s'' := s'.set_aggregate
        if trim then s''.update_previous_bar_from_last last else s''

/-- Value computation, from `Rsi::set_value`. -/
def set_value (s : Rsi) : Rsi :=
  match s.window_1m_bars with
  | none => s
  | some window =>
    match window.back with
    | none => s
    | some last =>
      match s.previous_bar with
      | none => s
      | some prev =>
        let diff := last.close - prev.close
        let gain := if diff > 0 then diff else 0
        let loss := if diff < 0 then -diff else 0
        let period : ℚ := s.period
        let avg_gain := (prev.avg_gain * (period - 1) + gain) / period
        let avg_loss := (prev.avg_loss * (period - 1) + loss) / period
        let value := if avg_loss = 0 then 100 else
          let rs := avg_gain / avg_loss
          100 - (100 / (1 + rs))
        { s with value := some value }

/-- Sums of the first `period` period-over-period gains and losses,
from the first loop of `Rsi::set_previous_bar_from_history`
(`for i in 1..=period`, branching on `diff >= 0`). -/
def initGainsLosses (closes : List ℚ) (period : Nat) : ℚ × ℚ :=
  (List.range period).foldl (fun (gl : ℚ × ℚ) i =>
    let diff := closes.getD (i + 1) 0 - closes.getD i 0
    if diff ≥ 0 then (gl.1 + diff, gl.2) else (gl.1, gl.2 - diff)) (0, 0)

/-- Wilder smoothing over the remaining closes, from the second loop of
`Rsi::set_previous_bar_from_history` (`for i in (period+1)..closes.len()`). -/
def wilderLoop (closes : List ℚ) (period : Nat) (avg : ℚ × ℚ) : ℚ × ℚ :=
  (List.range' (period + 1) (closes.length - (period + 1))).foldl
    (fun (avg : ℚ × ℚ) i =>
      let diff := closes.getD i 0 - closes.getD (i - 1) 0
      let gain := if diff > 0 then diff else 0
      let loss := if diff < 0 then -diff else 0
      let p : ℚ := period
      ((avg.1 * (p - 1) + gain) / p, (avg.2 * (p - 1) + loss) / p)) avg

/-- Previous-period state from the same-TF history, from
`Rsi::set_previous_bar_from_history`. -/
def set_previous_bar_from_history (s : Rsi) (now : Int) (input : KlineHist) : Rsi :=
  let tf := input.indicator_tf
  let prev_open := tf.nearest_ms now - tf.window_millis
  let closes : List ℚ :=
    (input.hist_tf.filter (fun bar => bar.open_time ≤ prev_open)).map (fun bar => bar.close)
  if closes.length < s.period + 1 then
    { s with previous_bar := none }
  else
    let init := initGainsLosses closes s.period
    let avg0 : ℚ × ℚ := (init.1 / (s.period : ℚ), init.2 / (s.period : ℚ))
    let avg := wilderLoop closes s.period avg0
    match closes.getLast? with
    | some close => { s with previous_bar := some ⟨close, avg.1, avg.2⟩ }
    | none => { s with previous_bar := none }

/-- Pre-warmup buffering of live bars, from `Rsi::update_buffer`. -/
def update_buffer (s : Rsi) (bar : Kline) : Rsi :=
  match s.buffer.back with
  | none => { s with buffer := s.buffer.push bar }
  | some last =>
    if last.open_time < bar.open_time then
      { s with buffer := s.buffer.push bar }
    else if ¬ last.closed ∧ last.open_time = bar.open_time then
      { s with buffer := s.buffer.replace_last bar }
    else
      s

/-- Window reconstruction at priming, from
`Rsi::set_window_1m_bars_from_history`: walk the `T` expected 1m
open-times starting at `floor_T(now)`, preferring a warmup-buffer bar
over the historical bar with the same open-time. -/
def set_window_1m_bars_from_history (s : Rsi) (now : Int) (input : KlineHist) : Rsi :=
  let tf := input.indicator_tf
  let window_size := tf.window_minutes
  let window_1m_size := Timeframe.M1.window_millis
  let window_start_ts := tf.nearest_ms now
  let ws := s.buffer.buffer
  let api := input.hist_1m
  let window := (List.range window_size).foldl (fun (w : RingBuffer Kline) idx =>
    let expected_open := window_start_ts + (idx : Int) * window_1m_size
    match lookupByOpen ws expected_open with
    | some bar => w.push bar
    | none =>
      match lookupByOpen api expected_open with
      | some bar => w.push bar
      | none => w) (RingBuffer.new Kline window_size)
  { s with window_1m_bars := some window }

/-- Priming, from `<Rsi as Indicator>::update_khist`. -/
def update_khist (s : Rsi) (now : Int) (input : KlineHist) : Rsi :=
  let s1 := s.set_window_1m_bars_from_history now input
  let s2 := { s1 with buffer := s1.buffer.clear }
  let s3 := s2.set_aggregate
  let s4 := s3.set_previous_bar_from_history now input
  let s5 := s4.set_value
  { s5 with stage := Stage.Ready }

/-- Live update, from `<Rsi as Indicator>::update`. -/
def update (s : Rsi) (now : Int) (bar : Kline) : Rsi × Option ℚ :=
  match s.stage with
  | Stage.New =>
    let s1 := { s with stage := Stage.WarmUp }
    (s1.update_buffer bar, none)
  | Stage.WarmUp =>
    (s.update_buffer bar, none)
  | Stage.Ready =>
    let s1 := s.update_window now bar
    let s2 := s1.set_value
    (s2, s2.value)

end Rsi

/-- Closed-period aggregate of the volatility calculator, from
`struct BarAggregation` in `src/indicators/volatility.rs`. -/
structure VolBarAggregation where
  high : ℚ
  high_ts : Int
  open_ : ℚ
  low : ℚ
  low_ts : Int
deriving DecidableEq, Repr

/-- Volatility calculator state, from `struct Volatility` in
`src/indicators/volatility.rs`. -/
structure Volatility where
  stage : Stage
  pair : String
  tf : Timeframe
  buffer : RingBuffer Kline
  window_1m_bars : Option (RingBuffer Kline)
  aggr_closed_bars : Option VolBarAggregation
  value : Option ℚ
deriving Repr

/-- Truncation toward zero, the behaviour of `f64::trunc`. -/
def truncQ (q : ℚ) : Int :=
  if 0 ≤ q then ⌊q⌋ else ⌈q⌉

/-- Truncation of a rational to four decimal places, from the
`(extent * 10000.0).trunc() / 10000.0` idiom in `Volatility::set_value`. -/
def trunc4 (q : ℚ) : ℚ :=
  (truncQ (q * 10000) : ℚ) / 10000

namespace Volatility

/-- Constructor from `Volatility::new`. -/
def new (tf : Timeframe) (pair : String) : Volatility :=
  { stage := Stage.New
    pair := pair
    tf := tf
    buffer := RingBuffer.new Kline 10
    window_1m_bars := none
    aggr_closed_bars := none
    value := none }

/-- Closed-period aggregate, from `Volatility::set_aggregate`.  Skips
the bar at the current 1m start and unclosed bars; strict comparisons
keep the earliest extremum on ties.  When the window is absent or
empty the source returns early without touching the aggregate. -/
def set_aggregate (s : Volatility) (now : Int) : Volatility :=
  if s.tf = Timeframe.M1 then
    { s with aggr_closed_bars := none }
  else
    let current_1m_start := Timeframe.M1.nearest_ms now
    match s.window_1m_bars with
    | none => s
    | some window =>
      match window.front with
      | none => s
      | some first_bar =>
        let open_ := first_bar.open_
        let hl := window.buffer.foldl
          (fun (hl : Option (ℚ × Int) × Option (ℚ × Int)) bar =>
            if bar.open_time = current_1m_start ∨ ¬ bar.closed then hl
            else
              let high := match hl.1 with
                | some (h, _) => if bar.high > h then some (bar.high, bar.open_time) else hl.1
                | none => some (bar.high, bar.open_time)
              let low := match hl.2 with
                | some (l, _) => if bar.low < l then some (bar.low, bar.open_time) else hl.2
                | none => some (bar.low, bar.open_time)
              (high, low)) (none, none)
        match hl.1, hl.2 with
        | some (high, high_ts), some (low, low_ts) =>
          { s with aggr_closed_bars := some ⟨high, high_ts, open_, low, low_ts⟩ }
        | _, _ => { s with aggr_closed_bars := none }

/-- Window maintenance on a live 1m bar, from `Volatility::update_window`
(no trimming of old-period bars, unlike the RSI variant). -/
def update_window (s : Volatility) (now : Int) (bar : Kline) : Volatility :=
  match s.window_1m_bars with
  | none => s
  | some window =>
    match window.back with
    | none => { s with window_1m_bars := some (window.push bar) }
    | some last =>
      if last.open_time < bar.open_time then
        ({ s with window_1m_bars := some (window.push bar) }).set_aggregate now
      else if ¬ last.closed ∧ last.open_time = bar.open_time then
        { s with window_1m_bars := some (window.replace_last bar) }
      else
        s

/-- Value computation, from `Volatility::set_value`. -/
def set_value (s : Volatility) : Volatility :=
  match s.window_1m_bars with
  | none => s
  | some window =>
    match window.back with
    | none => s
    | some last =>
      match s.aggr_closed_bars with
      | some aggr =>
        let high := max aggr.high last.high
        let low := min aggr.low last.low
        let sign : ℚ := if aggr.high_ts > aggr.low_ts then 1 else -1
        let extent := ((high - low) / low) * 100 * sign
        { s with value := some (trunc4 extent) }
      | none =>
        let sign : ℚ := if last.open_ < last.close then 1 else -1
        let extent := ((last.high - last.low) / last.low) * 100 * sign
        { s with value := some (trunc4 extent) }

/-- Pre-warmup buffering of live bars, from `Volatility::update_buffer`. -/
def update_buffer (s : Volatility) (bar : Kline) : Volatility :=
  match s.buffer.back with
  | none => { s with buffer := s.buffer.push bar }
  | some last =>
    if last.open_time < bar.open_time then
      { s with buffer := s.buffer.push bar }
    else if ¬ last.closed ∧ last.open_time = bar.open_time then
      { s with buffer := s.buffer.replace_last bar }
    else
      s

/-- Priming, from `<Volatility as Indicator>::update_khist`: the window
start is the last of the `T` one-minute open-times ending at the
current 1m start, preferring warmup-buffer bars over historical ones. -/
def update_khist (s : Volatility) (now : Int) (input : KlineHist) : Volatility :=
  let tf := input.indicator_tf
  let window_size := tf.window_minutes
  let window_1m_size := Timeframe.M1.window_millis
  let current_1m_start := Timeframe.M1.nearest_ms now
  let window_start_ts := current_1m_start - ((window_size : Int) - 1) * window_1m_size
  let ws := s.buffer.buffer
  let api := input.hist_1m
  let window := (List.range window_size).foldl (fun (w : RingBuffer Kline) idx =>
    let expected_open := window_start_ts + (idx : Int) * window_1m_size
    match lookupByOpen ws expected_open with
    | some bar => w.push bar
    | none =>
      match lookupByOpen api expected_open with
      | some bar => w.push bar
      | none => w) (RingBuffer.new Kline window_size)
  let s1 := { s with window_1m_bars := some window }
  let s2 := s1.set_aggregate now
  let s3 := { s2 with buffer := s2.buffer.clear }
  let s4 := s3.set_value
  { s4 with stage := Stage.Ready }

/-- Live update, from `<Volatility as Indicator>::update`. -/
def update (s : Volatility) (now : Int) (bar : Kline) : Volatility × Option ℚ :=
  match s.stage with
  | Stage.New =>
    let s1 := { s with stage := Stage.WarmUp }
    (s1.update_buffer bar, none)
  | Stage.WarmUp =>
    (s.update_buffer bar, none)
  | Stage.Ready =>
    let s1 := s.update_window now bar
    let s2 := s1.set_value
    (s2, s2.value)

end Volatility

/-- Association-list lookup with decidable key equality, the model of
`HashMap::get` used throughout the embedding. -/
def alookup {κ ν : Type} [DecidableEq κ] : List (κ × ν) → κ → Option ν
  | [], _ => none
  | (k, v) :: rest, key => if k = key then some v else alookup rest key

/-- Indicator key of the index lookup, from `enum IndicatorKey` in
`src/types/config.rs`. -/
inductive IndicatorKey
  | Volatility
  | Rsi
deriving DecidableEq, Repr

/-- Dense slot mapping, from `struct IndexLookup` in
`src/types/config.rs`.  Both hash maps are modelled as association
lists (insertion order is irrelevant to lookup). -/
structure IndexLookup where
  pair_to_id : List (String × Nat)
  slot_offsets : List ((IndicatorKey × Timeframe) × Nat)
  pair_stride : Nat
deriving DecidableEq, Repr

/-- Pair-id assignment, from the first loop of `IndexLookup::new`:
the enumeration index of the first occurrence of each pair. -/
def buildPairToId (pairs : List String) : List (String × Nat) :=
  pairs.enum.foldl (fun acc ip =>
    if (alookup acc ip.2).isSome then acc else acc ++ [(ip.2, ip.1)]) []

/-- Slot assignment for one indicator kind, from the per-kind loops of
`IndexLookup::new`: the first occurrence of each timeframe gets the
next slot. -/
def assignSlots (key : IndicatorKey) (tfs : List Timeframe)
    (st : List ((IndicatorKey × Timeframe) × Nat) × Nat) :
    List ((IndicatorKey × Timeframe) × Nat) × Nat :=
  tfs.foldl (fun st tf =>
    if (alookup st.1 (key, tf)).isSome then st else (st.1 ++ [((key, tf), st.2)], st.2 + 1)) st

namespace IndexLookup

/-- Constructor from `IndexLookup::new`: volatility slots first, then
RSI slots; the stride is the total slot count. -/
def new (pairs : List String) (volatility_enabled : Bool)
    (volatility_timeframes : List Timeframe) (rsi_enabled : Bool)
    (rsi_timeframes : List Timeframe) : IndexLookup :=
  let pair_to_id := buildPairToId pairs
  let st0 : List ((IndicatorKey × Timeframe) × Nat) × Nat := ([], 0)
  let st1 := if volatility_enabled then assignSlots IndicatorKey.Volatility volatility_timeframes st0 else st0
  let st2 := if rsi_enabled then assignSlots IndicatorKey.Rsi rsi_timeframes st1 else st1
  ⟨pair_to_id, st2.1, st2.2⟩

/-- Slot lookup, from `IndexLookup::index`. -/
def index (l : IndexLookup) (pair : String) (indicator : IndicatorKey)
    (timeframe : Timeframe) : Option Nat :=
  (alookup l.pair_to_id pair).bind fun pair_id =>
    (alookup l.slot_offsets (indicator, timeframe)).map fun slot =>
      pair_id * l.pair_stride + slot

/-- Number of distinct pairs, from `IndexLookup::pair_count`
(the size of the `pair_to_id` map). -/
def pair_count (l : IndexLookup) : Nat :=
  l.pair_to_id.length

end IndexLookup

/-- Volatility configuration, from `struct VolatilityConfig` in
`src/types/config.rs`. -/
structure VolatilityConfig where
  enabled : Bool
  timeframes : List Timeframe
deriving DecidableEq, Repr

/-- RSI configuration, from `struct RsiConfig` in `src/types/config.rs`. -/
structure RsiConfig where
  enabled : Bool
  length : Nat
  source : KlineSource
  timeframes : List Timeframe
deriving DecidableEq, Repr

/-- Indicator configuration, from `struct IndicatorConfig`. -/
structure IndicatorConfig where
  volatility : VolatilityConfig
  rsi : RsiConfig
deriving DecidableEq, Repr

/-- Active configuration snapshot, from `struct AppConfig`. -/
structure AppConfig where
  pairs : List String
  indicators : IndicatorConfig
  index_lookup : IndexLookup
deriving DecidableEq, Repr

/-- Settings delivered by the UI, from `SettingsForm` as consumed by
`AppConfig::from_settings`; the timeframe lists are the
enabled-filtered lists that the `filter_map` calls produce. -/
structure SettingsForm where
  pairs : List String
  volatility_enabled : Bool
  volatility_timeframes : List Timeframe
  rsi_enabled : Bool
  rsi_length : Nat
  rsi_source : KlineSource
  rsi_timeframes : List Timeframe
deriving DecidableEq, Repr

/-- Configuration construction, from `AppConfig::from_settings`. -/
def AppConfig.from_settings (s : SettingsForm) : AppConfig :=
  { pairs := s.pairs
    indicators :=
      { volatility := ⟨s.volatility_enabled, s.volatility_timeframes⟩
        rsi := ⟨s.rsi_enabled, s.rsi_length, s.rsi_source, s.rsi_timeframes⟩ }
    index_lookup := IndexLookup.new s.pairs s.volatility_enabled s.volatility_timeframes
      s.rsi_enabled s.rsi_timeframes }

/-- Result of one calculator update, from `enum IndicatorResult` in
`src/indicators/mod.rs`. -/
inductive IndicatorResult
  | Rsi (v : Option ℚ)
  | Volatility (v : Option ℚ)
deriving DecidableEq, Repr

/-- Projection from `IndicatorResult::into_rsi_value`. -/
def IndicatorResult.into_rsi_value : IndicatorResult → Option ℚ
  | .Rsi v => v
  | _ => none

/-- Projection from `IndicatorResult::into_volatility_value`. -/
def IndicatorResult.into_volatility_value : IndicatorResult → Option ℚ
  | .Volatility v => v
  | _ => none

/-- Insert-or-replace in an association list, the update semantics of
the engine's `HashMap`s. -/
def upsert {κ ν : Type} [DecidableEq κ] (l : List (κ × ν)) (k : κ) (v : ν) : List (κ × ν) :=
  if (alookup l k).isSome then
    l.map (fun p => if p.1 = k then (k, v) else p)
  else
    (k, v) :: l

/-- Calculator registry, from `struct IndicatorManager` in
`src/indicators/mod.rs`: two maps keyed by (pair, timeframe, name). -/
structure IndicatorManager where
  rsi : List ((String × Timeframe × IndicatorName) × Rsi)
  vol : List ((String × Timeframe × IndicatorName) × Volatility)
deriving Repr

namespace IndicatorManager

/-- Constructor from `IndicatorManager::new`. -/
def new : IndicatorManager :=
  ⟨[], []⟩

/-- Bundle application, from `IndicatorManager::update_khist`.  The
source calls `.get_mut(&key).unwrap()`; a missing calculator therefore
panics, modelled as `none`. -/
def update_khist (m : IndicatorManager) (now : Int) (khist : KlineHist) :
    Option IndicatorManager :=
  let key := (khist.pair, khist.indicator_tf, khist.indicator)
  match khist.indicator with
  | IndicatorName.Rsi =>
    (alookup m.rsi key).map fun entry =>
      { m with rsi := upsert m.rsi key (entry.update_khist now khist) }
  | IndicatorName.Volatility =>
    (alookup m.vol key).map fun entry =>
      { m with vol := upsert m.vol key (entry.update_khist now khist) }

/-- Live-bar dispatch, from `IndicatorManager::update`: the calculator
is created lazily (RSI always with period 14). -/
def update (m : IndicatorManager) (now : Int) (pair : String) (timeframe : Timeframe)
    (indicator : IndicatorName) (bar_1m : Kline) : IndicatorManager × IndicatorResult :=
  let key := (pair, timeframe, indicator)
  match indicator with
  | IndicatorName.Rsi =>
    let entry := (alookup m.rsi key).getD (Rsi.new 14 timeframe pair)
    let r := entry.update now bar_1m
    ({ m with rsi := upsert m.rsi key r.1 }, IndicatorResult.Rsi r.2)
  | IndicatorName.Volatility =>
    let entry := (alookup m.vol key).getD (Volatility.new timeframe pair)
    let r := entry.update now bar_1m
    ({ m with vol := upsert m.vol key r.1 }, IndicatorResult.Volatility r.2)

end IndicatorManager

/-- Tagged indicator value sent to the presentation sink, from
`enum IndicatorValue` in the message bus. -/
inductive IndicatorValue
  | Volatility (v : ℚ)
  | Rsi (v : ℚ)
deriving DecidableEq, Repr

/-- Live-bar event, from `struct KlineEvent`. -/
structure KlineEvent where
  pair : String
  timeframe : Timeframe
  bar : Kline
deriving Repr

/-- Engine input messages, from `enum EngineMessage`. -/
inductive EngineMessage
  | Kline (event : KlineEvent)
  | Reboot (reason : String)
  | KHistBundle (entries : List KlineHist)
  | Config (config : AppConfig)
deriving Repr

/-- One iteration of the engine's `select!` loop: either a message
received at wall-clock time `now`, or a 2-second flush tick. -/
inductive EngineInput
  | msg (now : Int) (m : EngineMessage)
  | tick
deriving Repr

/-- Engine state, from `struct Engine` in `src/engine/mod.rs` (without
the channels and the interval, which the step relation makes explicit). -/
structure Engine where
  config : Option AppConfig
  warmup_pending : Option (List String)
  warmup_done : Bool
  indicators : IndicatorManager
  pending_results : List (Nat × IndicatorValue)
deriving Repr

namespace Engine

/-- Initial state, from `Engine::new`. -/
def new : Engine :=
  { config := none
    warmup_pending := none
    warmup_done := false
    indicators := IndicatorManager.new
    pending_results := [] }

/-- Result tagging and slot lookup, from `Engine::push_result`. -/
def push_result (e : Engine) (index_lookup : IndexLookup) (pair : String)
    (indicator : IndicatorName) (timeframe : Timeframe) (value : ℚ) : Engine :=
  let indicator_key := match indicator with
    | IndicatorName.Volatility => IndicatorKey.Volatility
    | IndicatorName.Rsi => IndicatorKey.Rsi
  match index_lookup.index pair indicator_key timeframe with
  | some idx =>
    let val := match indicator with
      | IndicatorName.Volatility => IndicatorValue.Volatility value
      | IndicatorName.Rsi => IndicatorValue.Rsi value
    { e with pending_results := e.pending_results ++ [(idx, val)] }
  | none => e

/-- Reboot handling, from `Engine::handle_reboot`: discard all
calculators and rebuild the pending-warmup set from the configured
pairs (a `HashSet`, modelled as the deduplicated list). -/
def handle_reboot (e : Engine) : Engine :=
  { e with
    indicators := IndicatorManager.new
    warmup_pending := e.config.map (fun c => c.pairs.eraseDups)
    warmup_done := false }

/-- Live-bar handling, from `Engine::handle_kline`: one calculator
update per enabled indicator timeframe, pushing any produced value. -/
def handle_kline (e : Engine) (now : Int) (event : KlineEvent) : Engine :=
  match e.config with
  | none => e
  | some config =>
    let index_lookup := config.index_lookup
    let rsi_enabled := config.indicators.rsi.enabled
    let rsi_timeframes := config.indicators.rsi.timeframes
    let vol_enabled := config.indicators.volatility.enabled
    let vol_timeframes := config.indicators.volatility.timeframes
    let pair := event.pair
    let e1 :=
      if rsi_enabled then
        rsi_timeframes.foldl (fun (e : Engine) tf =>
          let r := e.indicators.update now pair tf IndicatorName.Rsi event.bar
          let e' := { e with indicators := r.1 }
          match r.2.into_rsi_value with
          | some val => e'.push_result index_lookup pair IndicatorName.Rsi tf val
          | none => e') e
      else e
    if vol_enabled then
      vol_timeframes.foldl (fun (e : Engine) tf =>
        let r := e.indicators.update now pair tf IndicatorName.Volatility event.bar
        let e' := { e with indicators := r.1 }
        match r.2.into_volatility_value with
        | some val => e'.push_result index_lookup pair IndicatorName.Volatility tf val
        | none => e') e1
    else e1

/-- Bundle handling, from `Engine::handle_khist_bundle`: prime each
entry in order; a missing calculator panics (`none`). -/
def handle_khist_bundle (e : Engine) (now : Int) (entries : List KlineHist) :
    Option Engine :=
  entries.foldlM (fun (e : Engine) khist =>
    (e.indicators.update_khist now khist).map fun m => { e with indicators := m }) e

/-- One iteration of `Engine::run`: processes one input and returns the
successor state together with the batches emitted to the presentation
sink during that iteration; `none` models a panic. -/
def step (e : Engine) (i : EngineInput) : Option (Engine × List (List (Nat × IndicatorValue))) :=
  match i with
  | EngineInput.tick =>
    if e.config.isNone then some (e, [])
    else if e.pending_results.isEmpty then some (e, [])
    else some ({ e with pending_results := [] }, [e.pending_results])
  | EngineInput.msg now m =>
    match m with
    | EngineMessage.Reboot _ => some (e.handle_reboot, [])
    | EngineMessage.Config c => some (({ e with config := some c }).handle_reboot, [])
    | EngineMessage.KHistBundle entries => (e.handle_khist_bundle now entries).map (fun e' => (e', []))
    | EngineMessage.Kline event =>
      if e.warmup_done then
        some (e.handle_kline now event, [])
      else
        match e.warmup_pending with
        | none => some (e, [])
        | some pending =>
          if pending.contains event.pair then
            let pending' := pending.erase event.pair
            let done := pending'.isEmpty
            let e1 := { e with warmup_pending := some pending', warmup_done := done }
            some (e1.handle_kline now event, [])
          else
            some (e.handle_kline now event, [])

/-- Run of the engine over a list of inputs: the emitted batches and
the final state (`none` once a step panics). -/
def runFrom (e : Engine) : List EngineInput → List (List (Nat × IndicatorValue)) × Option Engine
  | [] => ([], some e)
  | i :: rest =>
    match e.step i with
    | none => ([], none)
    | some (e', out) =>
      let r := e'.runFrom rest
      (out ++ r.1, r.2)

end Engine

/-- Run of live updates against one RSI calculator, each update made at
the bar's open time (live 1m bars arrive during their own minute, so the
source's `now_millis()` call is identified with the bar's `open_time`);
returns the final state and the per-update outputs. -/
def Rsi.feedLive (s : Rsi) : List Kline → Rsi × List (Option ℚ)
  | [] => (s, [])
  | b :: rest =>
    let r := s.update b.open_time b
    let r' := r.1.feedLive rest
    (r'.1, r.2 :: r'.2)

/-- Run of live updates against one volatility calculator, each update
made at the bar's open time. -/
def Volatility.feedLive (s : Volatility) : List Kline → Volatility × List (Option ℚ)
  | [] => (s, [])
  | b :: rest =>
    let r := s.update b.open_time b
    let r' := r.1.feedLive rest
    (r'.1, r.2 :: r'.2)

/-- Volatility emission formula exactly as the specification words it,
for comparison with the code: in the no-aggregate branch the sign is +1
when `last.close ≥ last.open`. -/
def volatilityValueSpec (aggr : Option VolBarAggregation) (last : Kline) : ℚ :=
  match aggr with
  | some a =>
    let high := max a.high last.high
    let low := min a.low last.low
    let sign : ℚ := if a.high_ts > a.low_ts then 1 else -1
    trunc4 (((high - low) / low) * 100 * sign)
  | none =>
    let sign : ℚ := if last.close ≥ last.open_ then 1 else -1
    trunc4 (((last.high - last.low) / last.low) * 100 * sign)

/-- Volatility emission formula as amended: the no-aggregate sign is +1
only when `last.open < last.close` (strict), as the code computes;
the aggregate branch is unchanged. -/
def volatilityValueAmended (aggr : Option VolBarAggregation) (last : Kline) : ℚ :=
  match aggr with
  | some a =>
    let high := max a.high last.high
    let low := min a.low last.low
    let sign : ℚ := if a.high_ts > a.low_ts then 1 else -1
    trunc4 (((high - low) / low) * 100 * sign)
  | none =>
    let sign : ℚ := if last.open_ < last.close then 1 else -1
    trunc4 (((last.high - last.low) / last.low) * 100 * sign)

/-- RSI emission formula as the claim words it: one Wilder step of the
stored previous-period averages with `gain = max(diff, 0)` and
`loss = max(−diff, 0)`, then `100` when the smoothed loss is zero and
`100 − 100/(1 + gain/loss)` otherwise. -/
def rsiValueSpec (period : ℚ) (prev : PreviousBar) (last : Kline) : ℚ :=
  let diff := last.close - prev.close
  let gain := max diff 0
  let loss := max (-diff) 0
  let avg_gain := (prev.avg_gain * (period - 1) + gain) / period
  let avg_loss := (prev.avg_loss * (period - 1) + loss) / period
  if avg_loss = 0 then 100 else 100 - 100 / (1 + avg_gain / avg_loss)

section ConcreteInputs

/-- Constant bar used by the concrete scenarios. -/
def constBar (t : Int) (c : ℚ) : Kline :=
  { open_ := c, high := c, low := c, close := c, volume := 0, open_time := t, closed := true }

/-- Bundle entry with no matching calculator (fresh engine after a
Reboot), used against `IndicatorManager::update_khist`. -/
def orphanHist : KlineHist :=
  { pair := "X", indicator := IndicatorName.Rsi, indicator_tf := Timeframe.M1,
    hist_1m := [], hist_tf := [] }

/-- Nine one-minute bars around the epoch used to prime the two
calculators of the C3 scenario. -/
def hist1mC3 : List Kline :=
  [constBar (-240000) 1, constBar (-180000) 2, constBar (-120000) 3, constBar (-60000) 4,
   constBar 0 5, constBar 60000 6, constBar 120000 7, constBar 180000 8, constBar 240000 9]

/-- History bundle entry for the C3 scenario, 5m timeframe. -/
def khC3 : KlineHist :=
  { pair := "X", indicator := IndicatorName.Rsi, indicator_tf := Timeframe.M5,
    hist_1m := hist1mC3, hist_tf := [] }

/-- Ready volatility calculator on a 1m timeframe whose single window
bar has `open == close`, used against `Volatility::set_value`. -/
def volTie : Volatility :=
  { stage := Stage.Ready, pair := "X", tf := Timeframe.M1,
    buffer := RingBuffer.new Kline 10,
    window_1m_bars := some ⟨[{ open_ := 1, high := 2, low := 1, close := 1, volume := 0,
                               open_time := 0, closed := false }], 1⟩,
    aggr_closed_bars := none, value := none }

/-- Ready RSI calculator whose window tail is a closed bar at the
epoch, used against `Rsi::update_window`. -/
def rsiClosedTail : Rsi :=
  { stage := Stage.Ready, pair := "X", tf := Timeframe.M5, period := 14,
    buffer := RingBuffer.new Kline 10,
    window_1m_bars := some ⟨[constBar 0 5], 5⟩,
    aggr_closed_bars := none, previous_bar := none, value := none }

/-- Ready volatility calculator with an empty 5-slot window, fed across
a 5m period boundary. -/
def volFresh : Volatility :=
  { stage := Stage.Ready, pair := "X", tf := Timeframe.M5,
    buffer := RingBuffer.new Kline 10,
    window_1m_bars := some (RingBuffer.new Kline 5),
    aggr_closed_bars := none, value := none }

/-- Six live 1m bars crossing the 5m boundary at 300000 ms. -/
def barsAcrossBoundary : List Kline :=
  [constBar 0 1, constBar 60000 1, constBar 120000 1, constBar 180000 1,
   constBar 240000 1, constBar 300000 1]

/-- Ready RSI calculator on 5m with a fresh (empty) 5-slot window. -/
def rsiFresh : Rsi :=
  { stage := Stage.Ready, pair := "X", tf := Timeframe.M5, period := 14,
    buffer := RingBuffer.new Kline 10,
    window_1m_bars := some (RingBuffer.new Kline 5),
    aggr_closed_bars := none, previous_bar := none, value := none }

/-- Two-pair configuration with only Volatility on 1m enabled. -/
def cfgXY : AppConfig := AppConfig.from_settings
  { pairs := ["X", "Y"], volatility_enabled := true, volatility_timeframes := [Timeframe.M1],
    rsi_enabled := false, rsi_length := 14, rsi_source := KlineSource.Close,
    rsi_timeframes := [] }

/-- Closed 1m bar at the epoch with an up move. -/
def barX : Kline :=
  { open_ := 1, high := 2, low := 1, close := 2, volume := 0, open_time := 0, closed := true }

/-- History bundle for pair X of the C1 scenario. -/
def khX : KlineHist :=
  { pair := "X", indicator := IndicatorName.Volatility, indicator_tf := Timeframe.M1,
    hist_1m := [barX], hist_tf := [] }

/-- Engine input sequence of the C1 scenario: configure pairs X and Y,
deliver a live X bar, apply X's warmup bundle, deliver another X bar,
then let the 2-second flush tick fire.  Pair Y never receives a live
bar and never has a bundle applied. -/
def inputsC1 : List EngineInput :=
  [EngineInput.msg 0 (EngineMessage.Config cfgXY),
   EngineInput.msg 0 (EngineMessage.Kline ⟨"X", Timeframe.M1, barX⟩),
   EngineInput.msg 0 (EngineMessage.KHistBundle [khX]),
   EngineInput.msg 0 (EngineMessage.Kline ⟨"X", Timeframe.M1, barX⟩),
   EngineInput.tick]

/-- Settings of the C10 scenario: both indicators enabled on 1m, the
RSI extras at their defaults. -/
def settingsC10 : SettingsForm :=
  { pairs := ["X", "Y"], volatility_enabled := true, volatility_timeframes := [Timeframe.M1],
    rsi_enabled := true, rsi_length := 14, rsi_source := KlineSource.Close,
    rsi_timeframes := [Timeframe.M1] }

/-- The same settings with a different RSI length and source. -/
def settingsC10alt : SettingsForm :=
  { settingsC10 with rsi_length := 99, rsi_source := KlineSource.Open }

/-- C10 scenario run: configure, live X bar, X's volatility bundle,
another X bar, flush tick. -/
def inputsC10 : List EngineInput :=
  [EngineInput.msg 0 (EngineMessage.Config (AppConfig.from_settings settingsC10)),
   EngineInput.msg 0 (EngineMessage.Kline ⟨"X", Timeframe.M1, barX⟩),
   EngineInput.msg 0 (EngineMessage.KHistBundle [khX]),
   EngineInput.msg 0 (EngineMessage.Kline ⟨"X", Timeframe.M1, barX⟩),
   EngineInput.tick]

/-- The same run with the alternative RSI length and source. -/
def inputsC10alt : List EngineInput :=
  [EngineInput.msg 0 (EngineMessage.Config (AppConfig.from_settings settingsC10alt)),
   EngineInput.msg 0 (EngineMessage.Kline ⟨"X", Timeframe.M1, barX⟩),
   EngineInput.msg 0 (EngineMessage.KHistBundle [khX]),
   EngineInput.msg 0 (EngineMessage.Kline ⟨"X", Timeframe.M1, barX⟩),
   EngineInput.tick]

end ConcreteInputs

/-- Concrete lookup built from a pair list with a duplicate, used
against the `pair_count × pair_stride` bound. -/
def dupLookup : IndexLookup :=
  IndexLookup.new ["A", "A", "B"] true [Timeframe.M1] false []

/-- Well-formedness of one RSI calculator: period at least 1,
nonnegative stored Wilder averages, and any stored value in [0, 100].
Engine-created calculators (`Rsi::new(14, …)`) satisfy it. -/
def RsiGood (s : Rsi) : Prop :=
  1 ≤ s.period ∧
  (∀ pb, s.previous_bar = some pb → 0 ≤ pb.avg_gain ∧ 0 ≤ pb.avg_loss) ∧
  (∀ v, s.value = some v → 0 ≤ v ∧ v ≤ 100)

/-- State of an RSI calculator that has never been successfully primed:
no previous-period scalars and no value. -/
def RsiUnprimed (s : Rsi) : Prop :=
  s.previous_bar = none ∧ s.value = none

/-- Qualifying strictly-prior-period closes of a history bundle entry,
as counted by `Rsi::set_previous_bar_from_history` at wall-clock `now`. -/
def priorCloses (now : Int) (input : KlineHist) : List ℚ :=
  (input.hist_tf.filter (fun bar =>
    bar.open_time ≤ input.indicator_tf.nearest_ms now - input.indicator_tf.window_millis)).map
    (fun bar => bar.close)

/-- Window invariant of the amended C4 claim for one calculator window
relative to the open time `t` of the latest live bar: length bounded by
the timeframe's minutes and every bar inside the current `tf` period. -/
def WindowInv (tf : Timeframe) (t : Int) (w : RingBuffer Kline) : Prop :=
  w.buffer.length ≤ tf.window_minutes ∧
  ∀ b ∈ w.buffer, tf.nearest_ms t ≤ b.open_time ∧ b.open_time < tf.nearest_ms t + tf.window_millis

/-- Sortedness of the open times inside a window. -/
def WindowSorted (w : RingBuffer Kline) : Prop :=
  w.buffer.Pairwise (fun a b => a.open_time ≤ b.open_time)

/-- Canonicalization of the configured RSI length and source, the two
fields the engine never reads (`IndicatorManager::update` hardcodes
`Rsi::new(14, …)` and the calculator reads bar closes): the length is
replaced by the hardcoded 14 and the source by `Close`.  Two
configurations are identical except for the configured RSI length or
source exactly when they scrub to the same configuration. -/
def scrubConfig (c : AppConfig) : AppConfig :=
  { c with indicators := { c.indicators with rsi :=
      { c.indicators.rsi with length := 14, source := KlineSource.Close } } }

/-- Scrubbing of the config stored in an engine state. -/
def scrubEngine (e : Engine) : Engine :=
  { e with config := e.config.map scrubConfig }

/-- Scrubbing of the configuration carried by a `Config` message. -/
def scrubMessage : EngineMessage → EngineMessage
  | EngineMessage.Config c => EngineMessage.Config (scrubConfig c)
  | m => m

/-- Scrubbing of one engine input. -/
def scrubInput : EngineInput → EngineInput
  | EngineInput.msg n m => EngineInput.msg n (scrubMessage m)
  | EngineInput.tick => EngineInput.tick

/-- Settings agreement on everything but the RSI length and source. -/
def SettingsExceptRsiExtras (s s' : SettingsForm) : Prop :=
  s.pairs = s'.pairs ∧
  s.volatility_enabled = s'.volatility_enabled ∧
  s.volatility_timeframes = s'.volatility_timeframes ∧
  s.rsi_enabled = s'.rsi_enabled ∧
  s.rsi_timeframes = s'.rsi_timeframes

/-- Discriminator for live-bar inputs. -/
def isKlineInput : EngineInput → Bool
  | EngineInput.msg _ (EngineMessage.Kline _) => true
  | _ => false

/-- Discriminator for history-bundle inputs. -/
def isBundleInput : EngineInput → Bool
  | EngineInput.msg _ (EngineMessage.KHistBundle _) => true
  | _ => false

/-- Registry predicate: no calculator has reached the Ready stage. -/
def NoReadyCalcs (m : IndicatorManager) : Prop :=
  (∀ kv ∈ m.rsi, kv.2.stage ≠ Stage.Ready) ∧
  (∀ kv ∈ m.vol, kv.2.stage ≠ Stage.Ready)

/-! ## Helper lemmas -/

theorem alookup_nil {κ ν : Type} [DecidableEq κ] (k : κ) :
    alookup ([] : List (κ × ν)) k = none := rfl

theorem alookup_append {κ ν : Type} [DecidableEq κ] (l1 l2 : List (κ × ν)) (k : κ) :
    alookup (l1 ++ l2) k = ((alookup l1 k).orElse fun _ => alookup l2 k) := by
  induction l1 with
  | nil => simp [alookup]
  | cons kv rest ih =>
    obtain ⟨k', v'⟩ := kv
    by_cases h : k' = k <;> simp [alookup, h, ih]

theorem orElse_isSome {ν : Type} (o o' : Option ν) :
    (o.orElse fun _ => o').isSome = (o.isSome || o'.isSome) := by
  cases o <;> simp [Option.orElse]

theorem alookup_append_isSome {κ ν : Type} [DecidableEq κ] (l1 l2 : List (κ × ν)) (k : κ) :
    (alookup (l1 ++ l2) k).isSome = ((alookup l1 k).isSome || (alookup l2 k).isSome) := by
  rw [alookup_append, orElse_isSome]

theorem alookup_mem {κ ν : Type} [DecidableEq κ] {l : List (κ × ν)} {k : κ} {v : ν}
    (h : alookup l k = some v) : (k, v) ∈ l := by
  induction l with
  | nil => simp [alookup] at h
  | cons kv rest ih =>
    obtain ⟨k', v'⟩ := kv
    by_cases hk : k' = k
    · subst hk
      simp [alookup] at h
      simp [h]
    · simp [alookup, hk] at h
      exact List.mem_cons_of_mem _ (ih h)

theorem buildPairToId_foldl_isSome (l : List (Nat × String)) :
    ∀ (acc : List (String × Nat)) (p : String),
      (alookup (l.foldl (fun acc ip =>
        if (alookup acc ip.2).isSome then acc else acc ++ [(ip.2, ip.1)]) acc) p).isSome ↔
      (alookup acc p).isSome ∨ p ∈ l.map Prod.snd := by
  induction l with
  | nil => intro acc p; simp
  | cons ip rest ih =>
    intro acc p
    obtain ⟨i, q⟩ := ip
    rw [List.foldl_cons, List.map_cons]
    by_cases hq : (alookup acc q).isSome
    · rw [if_pos hq, ih acc p]
      constructor
      · rintro (h | h)
        · exact Or.inl h
        · exact Or.inr (List.mem_cons_of_mem _ h)
      · rintro (h | h)
        · exact Or.inl h
        · rcases List.mem_cons.mp h with h' | h'
          · subst h'; exact Or.inl hq
          · exact Or.inr h'
    · rw [if_neg hq, ih (acc ++ [(q, i)]) p, alookup_append_isSome]
      by_cases hpq : q = p
      · subst hpq
        have hq1 : (alookup [(q, i)] q).isSome = true := by simp [alookup]
        rw [hq1]
        simp
      · have hq1 : (alookup [(q, i)] p).isSome = false := by simp [alookup, hpq]
        rw [hq1]
        simp only [Bool.or_false]
        constructor
        · rintro (h | h)
          · exact Or.inl h
          · exact Or.inr (List.mem_cons_of_mem _ h)
        · rintro (h | h)
          · exact Or.inl h
          · rcases List.mem_cons.mp h with h' | h'
            · exact absurd h'.symm hpq
            · exact Or.inr h'

theorem buildPairToId_foldl_bound (l : List (Nat × String)) :
    ∀ (acc : List (String × Nat)) (n : Nat),
      (∀ kv ∈ acc, kv.2 < n) → (∀ ip ∈ l, ip.1 < n) →
      ∀ kv ∈ l.foldl (fun acc ip =>
        if (alookup acc ip.2).isSome then acc else acc ++ [(ip.2, ip.1)]) acc, kv.2 < n := by
  induction l with
  | nil => intro acc n hacc _ kv hkv; exact hacc kv hkv
  | cons ip rest ih =>
    intro acc n hacc hl kv hkv
    obtain ⟨i, q⟩ := ip
    rw [List.foldl_cons] at hkv
    by_cases hq : (alookup acc q).isSome
    · rw [if_pos hq] at hkv
      exact ih acc n hacc (fun x hx => hl x (List.mem_cons_of_mem _ hx)) kv hkv
    · rw [if_neg hq] at hkv
      refine ih (acc ++ [(q, i)]) n ?_ (fun x hx => hl x (List.mem_cons_of_mem _ hx)) kv hkv
      intro x hx
      rcases List.mem_append.mp hx with h | h
      · exact hacc x h
      · simp at h
        subst h
        exact hl (i, q) (List.mem_cons_self _ _)

theorem buildPairToId_isSome (pairs : List String) (p : String) :
    (alookup (buildPairToId pairs) p).isSome ↔ p ∈ pairs := by
  unfold buildPairToId
  rw [buildPairToId_foldl_isSome]
  simp [alookup, List.enum_map_snd]

theorem buildPairToId_bound (pairs : List String) (p : String) (i : Nat)
    (h : alookup (buildPairToId pairs) p = some i) : i < pairs.length := by
  have hmem := alookup_mem h
  unfold buildPairToId at hmem
  refine buildPairToId_foldl_bound pairs.enum [] pairs.length (by simp) ?_ (p, i) hmem
  intro ip hip
  obtain ⟨a, b⟩ := ip
  have h2 := List.mk_mem_enum_iff_getElem?.mp hip
  obtain ⟨hlt, -⟩ := List.getElem?_eq_some.mp h2
  exact hlt

theorem assignSlots_other (key : IndicatorKey) (tfs : List Timeframe) :
    ∀ (st : List ((IndicatorKey × Timeframe) × Nat) × Nat) (k' : IndicatorKey × Timeframe),
      k'.1 ≠ key → alookup (assignSlots key tfs st).1 k' = alookup st.1 k' := by
  induction tfs with
  | nil => intro st k' _; rfl
  | cons tf rest ih =>
    intro st k' hne
    unfold assignSlots
    rw [List.foldl_cons]
    by_cases h : (alookup st.1 (key, tf)).isSome
    · rw [if_pos h]
      exact ih st k' hne
    · rw [if_neg h]
      have step := ih (st.1 ++ [((key, tf), st.2)], st.2 + 1) k' hne
      unfold assignSlots at step
      rw [step, alookup_append]
      have hnone : alookup [((key, tf), st.2)] k' = none := by
        simp only [alookup]
        rw [if_neg]
        intro hk
        exact hne (congrArg Prod.fst hk).symm
      rw [hnone]
      cases alookup st.1 k' <;> simp [Option.orElse]

theorem assignSlots_isSome (key : IndicatorKey) (tfs : List Timeframe) :
    ∀ (st : List ((IndicatorKey × Timeframe) × Nat) × Nat) (tf : Timeframe),
      (alookup (assignSlots key tfs st).1 (key, tf)).isSome ↔
        tf ∈ tfs ∨ (alookup st.1 (key, tf)).isSome := by
  induction tfs with
  | nil => intro st tf; simp [assignSlots]
  | cons tf0 rest ih =>
    intro st tf
    unfold assignSlots
    rw [List.foldl_cons]
    by_cases h : (alookup st.1 (key, tf0)).isSome
    · rw [if_pos h]
      have step := ih st tf
      unfold assignSlots at step
      rw [step]
      constructor
      · rintro (hh | hh)
        · exact Or.inl (List.mem_cons_of_mem _ hh)
        · exact Or.inr hh
      · rintro (hh | hh)
        · rcases List.mem_cons.mp hh with h' | h'
          · subst h'; exact Or.inr h
          · exact Or.inl h'
        · exact Or.inr hh
    · rw [if_neg h]
      have step := ih (st.1 ++ [((key, tf0), st.2)], st.2 + 1) tf
      unfold assignSlots at step
      rw [step, alookup_append_isSome]
      by_cases htf : tf0 = tf
      · subst htf
        have hq1 : (alookup [((key, tf0), st.2)] (key, tf0)).isSome = true := by simp [alookup]
        rw [hq1]
        simp
      · have hq1 : (alookup [((key, tf0), st.2)] (key, tf)).isSome = false := by
          simp [alookup, htf]
        rw [hq1]
        simp only [Bool.or_false]
        constructor
        · rintro (hh | hh)
          · exact Or.inl (List.mem_cons_of_mem _ hh)
          · exact Or.inr hh
        · rintro (hh | hh)
          · rcases List.mem_cons.mp hh with h' | h'
            · exact absurd h'.symm htf
            · exact Or.inl h'
          · exact Or.inr hh

theorem assignSlots_bound (key : IndicatorKey) (tfs : List Timeframe) :
    ∀ (st : List ((IndicatorKey × Timeframe) × Nat) × Nat),
      (∀ kv ∈ st.1, kv.2 < st.2) →
      (∀ kv ∈ (assignSlots key tfs st).1, kv.2 < (assignSlots key tfs st).2) ∧
        st.2 ≤ (assignSlots key tfs st).2 := by
  induction tfs with
  | nil => intro st h; exact ⟨h, le_refl _⟩
  | cons tf rest ih =>
    intro st h
    unfold assignSlots
    rw [List.foldl_cons]
    by_cases hs : (alookup st.1 (key, tf)).isSome
    · rw [if_pos hs]
      exact ih st h
    · rw [if_neg hs]
      have hstep : ∀ kv ∈ st.1 ++ [((key, tf), st.2)], kv.2 < st.2 + 1 := by
        intro kv hkv
        rcases List.mem_append.mp hkv with hh | hh
        · exact Nat.lt_succ_of_lt (h kv hh)
        · simp at hh
          subst hh
          exact Nat.lt_succ_self _
      have hres := ih (st.1 ++ [((key, tf), st.2)], st.2 + 1) hstep
      unfold assignSlots at hres
      exact ⟨hres.1, Nat.le_of_succ_le hres.2⟩

theorem set_aggregate_keeps (s : Rsi) :
    (s.set_aggregate).stage = s.stage ∧ (s.set_aggregate).tf = s.tf ∧
    (s.set_aggregate).period = s.period ∧ (s.set_aggregate).buffer = s.buffer ∧
    (s.set_aggregate).window_1m_bars = s.window_1m_bars ∧
    (s.set_aggregate).previous_bar = s.previous_bar ∧
    (s.set_aggregate).value = s.value := by
  obtain ⟨st, pa, tf, per, buf, win, aggr, prev, val⟩ := s
  unfold Rsi.set_aggregate
  split
  · exact ⟨rfl, rfl, rfl, rfl, rfl, rfl, rfl⟩
  · cases win with
    | none => exact ⟨rfl, rfl, rfl, rfl, rfl, rfl, rfl⟩
    | some w =>
      simp only
      cases w.iter_without_last with
      | nil => exact ⟨rfl, rfl, rfl, rfl, rfl, rfl, rfl⟩
      | cons a l => exact ⟨rfl, rfl, rfl, rfl, rfl, rfl, rfl⟩

theorem update_previous_bar_keeps (s : Rsi) (last : Kline) :
    (s.update_previous_bar_from_last last).stage = s.stage ∧
    (s.update_previous_bar_from_last last).tf = s.tf ∧
    (s.update_previous_bar_from_last last).period = s.period ∧
    (s.update_previous_bar_from_last last).buffer = s.buffer ∧
    (s.update_previous_bar_from_last last).window_1m_bars = s.window_1m_bars ∧
    (s.update_previous_bar_from_last last).value = s.value := by
  obtain ⟨st, pa, tf, per, buf, win, aggr, prev, val⟩ := s
  unfold Rsi.update_previous_bar_from_last
  cases prev with
  | none => exact ⟨rfl, rfl, rfl, rfl, rfl, rfl⟩
  | some p => exact ⟨rfl, rfl, rfl, rfl, rfl, rfl⟩

theorem update_previous_bar_of_none (s : Rsi) (last : Kline)
    (h : s.previous_bar = none) : s.update_previous_bar_from_last last = s := by
  obtain ⟨st, pa, tf, per, buf, win, aggr, prev, val⟩ := s
  subst h
  rfl

theorem set_value_keeps (s : Rsi) :
    (s.set_value).stage = s.stage ∧ (s.set_value).tf = s.tf ∧
    (s.set_value).period = s.period ∧ (s.set_value).buffer = s.buffer ∧
    (s.set_value).window_1m_bars = s.window_1m_bars ∧
    (s.set_value).previous_bar = s.previous_bar := by
  obtain ⟨st, pa, tf, per, buf, win, aggr, prev, val⟩ := s
  unfold Rsi.set_value
  cases win with
  | none => exact ⟨rfl, rfl, rfl, rfl, rfl, rfl⟩
  | some w =>
    simp only
    cases w.back with
    | none => exact ⟨rfl, rfl, rfl, rfl, rfl, rfl⟩
    | some last =>
      cases prev with
      | none => exact ⟨rfl, rfl, rfl, rfl, rfl, rfl⟩
      | some p => exact ⟨rfl, rfl, rfl, rfl, rfl, rfl⟩

theorem set_value_of_no_prev (s : Rsi) (h : s.previous_bar = none) : s.set_value = s := by
  obtain ⟨st, pa, tf, per, buf, win, aggr, prev, val⟩ := s
  subst h
  unfold Rsi.set_value
  cases win with
  | none => rfl
  | some w =>
    simp only
    cases w.back with
    | none => rfl
    | some last => rfl

theorem update_buffer_keeps (s : Rsi) (bar : Kline) :
    (s.update_buffer bar).stage = s.stage ∧ (s.update_buffer bar).tf = s.tf ∧
    (s.update_buffer bar).period = s.period ∧
    (s.update_buffer bar).window_1m_bars = s.window_1m_bars ∧
    (s.update_buffer bar).previous_bar = s.previous_bar ∧
    (s.update_buffer bar).value = s.value := by
  obtain ⟨st, pa, tf, per, buf, win, aggr, prev, val⟩ := s
  unfold Rsi.update_buffer
  cases buf.back with
  | none => exact ⟨rfl, rfl, rfl, rfl, rfl, rfl⟩
  | some last =>
    simp only
    split
    · exact ⟨rfl, rfl, rfl, rfl, rfl, rfl⟩
    · split
      · exact ⟨rfl, rfl, rfl, rfl, rfl, rfl⟩
      · exact ⟨rfl, rfl, rfl, rfl, rfl, rfl⟩

theorem update_window_keeps (s : Rsi) (now : Int) (bar : Kline) :
    (s.update_window now bar).stage = s.stage ∧ (s.update_window now bar).tf = s.tf ∧
    (s.update_window now bar).period = s.period ∧
    (s.update_window now bar).buffer = s.buffer ∧
    (s.update_window now bar).value = s.value := by
  obtain ⟨st, pa, tf, per, buf, win, aggr, prev, val⟩ := s
  unfold Rsi.update_window
  cases win with
  | none => exact ⟨rfl, rfl, rfl, rfl, rfl⟩
  | some w =>
    simp only
    cases w.back with
    | none => exact ⟨rfl, rfl, rfl, rfl, rfl⟩
    | some last =>
      simp only
      split
      · exact ⟨rfl, rfl, rfl, rfl, rfl⟩
      · split
        · exact ⟨rfl, rfl, rfl, rfl, rfl⟩
        · split
          · refine ⟨?_, ?_, ?_, ?_, ?_⟩
            · rw [(update_previous_bar_keeps _ _).1, (set_aggregate_keeps _).1]
            · rw [(update_previous_bar_keeps _ _).2.1, (set_aggregate_keeps _).2.1]
            · rw [(update_previous_bar_keeps _ _).2.2.1, (set_aggregate_keeps _).2.2.1]
            · rw [(update_previous_bar_keeps _ _).2.2.2.1, (set_aggregate_keeps _).2.2.2.1]
            · rw [(update_previous_bar_keeps _ _).2.2.2.2.2, (set_aggregate_keeps _).2.2.2.2.2.2]
          · refine ⟨?_, ?_, ?_, ?_, ?_⟩
            · rw [(set_aggregate_keeps _).1]
            · rw [(set_aggregate_keeps _).2.1]
            · rw [(set_aggregate_keeps _).2.2.1]
            · rw [(set_aggregate_keeps _).2.2.2.1]
            · rw [(set_aggregate_keeps _).2.2.2.2.2.2]

theorem update_window_prev_of_none (s : Rsi) (now : Int) (bar : Kline)
    (h : s.previous_bar = none) : (s.update_window now bar).previous_bar = none := by
  obtain ⟨st, pa, tf, per, buf, win, aggr, prev, val⟩ := s
  subst h
  unfold Rsi.update_window
  cases win with
  | none => rfl
  | some w =>
    simp only
    cases w.back with
    | none => rfl
    | some last =>
      simp only
      split
      · rfl
      · split
        · rfl
        · split
          · rw [update_previous_bar_of_none _ _ (by rw [(set_aggregate_keeps _).2.2.2.2.2.1]),
              (set_aggregate_keeps _).2.2.2.2.2.1]
          · rw [(set_aggregate_keeps _).2.2.2.2.2.1]

theorem set_window_hist_keeps (s : Rsi) (now : Int) (input : KlineHist) :
    (s.set_window_1m_bars_from_history now input).stage = s.stage ∧
    (s.set_window_1m_bars_from_history now input).tf = s.tf ∧
    (s.set_window_1m_bars_from_history now input).period = s.period ∧
    (s.set_window_1m_bars_from_history now input).buffer = s.buffer ∧
    (s.set_window_1m_bars_from_history now input).previous_bar = s.previous_bar ∧
    (s.set_window_1m_bars_from_history now input).value = s.value :=
  ⟨rfl, rfl, rfl, rfl, rfl, rfl⟩

theorem set_prev_hist_keeps (s : Rsi) (now : Int) (input : KlineHist) :
    (s.set_previous_bar_from_history now input).stage = s.stage ∧
    (s.set_previous_bar_from_history now input).tf = s.tf ∧
    (s.set_previous_bar_from_history now input).period = s.period ∧
    (s.set_previous_bar_from_history now input).buffer = s.buffer ∧
    (s.set_previous_bar_from_history now input).window_1m_bars = s.window_1m_bars ∧
    (s.set_previous_bar_from_history now input).value = s.value := by
  obtain ⟨st, pa, tf, per, buf, win, aggr, prev, val⟩ := s
  simp only [Rsi.set_previous_bar_from_history]
  split
  · exact ⟨rfl, rfl, rfl, rfl, rfl, rfl⟩
  · split
    · exact ⟨rfl, rfl, rfl, rfl, rfl, rfl⟩
    · exact ⟨rfl, rfl, rfl, rfl, rfl, rfl⟩

theorem set_prev_hist_fail (s : Rsi) (now : Int) (input : KlineHist)
    (h : (priorCloses now input).length < s.period + 1) :
    (s.set_previous_bar_from_history now input).previous_bar = none := by
  obtain ⟨st, pa, tf, per, buf, win, aggr, prev, val⟩ := s
  simp only [priorCloses] at h
  simp only [Rsi.set_previous_bar_from_history]
  rw [if_pos h]

theorem rsi_update_unprimed (s : Rsi) (now : Int) (bar : Kline) (h : RsiUnprimed s) :
    RsiUnprimed (s.update now bar).1 ∧ (s.update now bar).2 = none := by
  obtain ⟨hprev, hval⟩ := h
  unfold Rsi.update
  cases hst : s.stage with
  | New =>
    refine ⟨⟨?_, ?_⟩, rfl⟩
    · rw [(update_buffer_keeps _ _).2.2.2.2.1]
      exact hprev
    · rw [(update_buffer_keeps _ _).2.2.2.2.2]
      exact hval
  | WarmUp =>
    refine ⟨⟨?_, ?_⟩, rfl⟩
    · rw [(update_buffer_keeps _ _).2.2.2.2.1]
      exact hprev
    · rw [(update_buffer_keeps _ _).2.2.2.2.2]
      exact hval
  | Ready =>
    simp only
    have h1prev : (s.update_window now bar).previous_bar = none :=
      update_window_prev_of_none s now bar hprev
    have h1val : (s.update_window now bar).value = none := by
      rw [(update_window_keeps s now bar).2.2.2.2]
      exact hval
    rw [set_value_of_no_prev _ h1prev]
    exact ⟨⟨h1prev, h1val⟩, h1val⟩

theorem rsi_feedLive_unprimed (bars : List Kline) :
    ∀ (s : Rsi), RsiUnprimed s →
      RsiUnprimed (s.feedLive bars).1 ∧ ∀ o ∈ (s.feedLive bars).2, o = none := by
  induction bars with
  | nil => intro s h; exact ⟨h, by intro o ho; simp [Rsi.feedLive] at ho⟩
  | cons b rest ih =>
    intro s h
    have hstep := rsi_update_unprimed s b.open_time b h
    have hrest := ih (s.update b.open_time b).1 hstep.1
    unfold Rsi.feedLive
    refine ⟨hrest.1, ?_⟩
    intro o ho
    simp only [List.mem_cons] at ho
    rcases ho with ho | ho
    · rw [ho, hstep.2]
    · exact hrest.2 o ho

theorem update_khist_unfold (s : Rsi) (now : Int) (kh : KlineHist) :
    s.update_khist now kh =
      { ((({ s.set_window_1m_bars_from_history now kh with
          buffer := (s.set_window_1m_bars_from_history now kh).buffer.clear } : Rsi).set_aggregate.set_previous_bar_from_history
            now kh).set_value) with stage := Stage.Ready } := rfl

theorem rsi_update_khist_unprimed (s : Rsi) (now : Int) (kh : KlineHist)
    (hval : s.value = none)
    (hcount : (priorCloses now kh).length < s.period + 1) :
    RsiUnprimed (s.update_khist now kh) ∧ (s.update_khist now kh).stage = Stage.Ready := by
  rw [update_khist_unfold]
  set A := ({ s.set_window_1m_bars_from_history now kh with
    buffer := (s.set_window_1m_bars_from_history now kh).buffer.clear } : Rsi).set_aggregate.set_previous_bar_from_history
      now kh with hA
  have hprevA : A.previous_bar = none := by
    rw [hA]
    apply set_prev_hist_fail
    rw [(set_aggregate_keeps _).2.2.1]
    show (s.set_window_1m_bars_from_history now kh).period + 1 > _
    rw [(set_window_hist_keeps s now kh).2.2.1]
    exact hcount
  have hvalA : A.value = none := by
    rw [hA, (set_prev_hist_keeps _ _ _).2.2.2.2.2, (set_aggregate_keeps _).2.2.2.2.2.2]
    show (s.set_window_1m_bars_from_history now kh).value = none
    rw [(set_window_hist_keeps s now kh).2.2.2.2.2]
    exact hval
  rw [set_value_of_no_prev A hprevA]
  exact ⟨⟨hprevA, hvalA⟩, rfl⟩

theorem vol_set_aggregate_keeps (s : Volatility) (now : Int) :
    (s.set_aggregate now).stage = s.stage ∧ (s.set_aggregate now).tf = s.tf ∧
    (s.set_aggregate now).buffer = s.buffer ∧
    (s.set_aggregate now).window_1m_bars = s.window_1m_bars ∧
    (s.set_aggregate now).value = s.value := by
  obtain ⟨st, pa, tf, buf, win, aggr, val⟩ := s
  unfold Volatility.set_aggregate
  split
  · exact ⟨rfl, rfl, rfl, rfl, rfl⟩
  · cases win with
    | none => exact ⟨rfl, rfl, rfl, rfl, rfl⟩
    | some w =>
      simp only
      cases w.front with
      | none => exact ⟨rfl, rfl, rfl, rfl, rfl⟩
      | some fb =>
        simp only
        split
        · exact ⟨rfl, rfl, rfl, rfl, rfl⟩
        · exact ⟨rfl, rfl, rfl, rfl, rfl⟩

theorem vol_set_value_keeps (s : Volatility) :
    (s.set_value).stage = s.stage ∧ (s.set_value).tf = s.tf ∧
    (s.set_value).buffer = s.buffer ∧
    (s.set_value).window_1m_bars = s.window_1m_bars ∧
    (s.set_value).aggr_closed_bars = s.aggr_closed_bars := by
  obtain ⟨st, pa, tf, buf, win, aggr, val⟩ := s
  unfold Volatility.set_value
  cases win with
  | none => exact ⟨rfl, rfl, rfl, rfl, rfl⟩
  | some w =>
    simp only
    cases w.back with
    | none => exact ⟨rfl, rfl, rfl, rfl, rfl⟩
    | some last =>
      cases aggr with
      | none => exact ⟨rfl, rfl, rfl, rfl, rfl⟩
      | some a => exact ⟨rfl, rfl, rfl, rfl, rfl⟩

theorem vol_prime_chain_window (s1 : Volatility) (now : Int) :
    ({ ({ s1.set_aggregate now with
        buffer := (s1.set_aggregate now).buffer.clear } : Volatility).set_value with
      stage := Stage.Ready } : Volatility).window_1m_bars = s1.window_1m_bars := by
  show ({ s1.set_aggregate now with
    buffer := (s1.set_aggregate now).buffer.clear } : Volatility).set_value.window_1m_bars = _
  rw [(vol_set_value_keeps _).2.2.2.1]
  show (s1.set_aggregate now).window_1m_bars = _
  rw [(vol_set_aggregate_keeps _ _).2.2.2.1]

theorem vol_update_khist_window (s : Volatility) (now : Int) (kh : KlineHist) :
    (s.update_khist now kh).window_1m_bars = some
      ((List.range kh.indicator_tf.window_minutes).foldl (fun (w : RingBuffer Kline) idx =>
        let expected_open := (Timeframe.M1.nearest_ms now -
          ((kh.indicator_tf.window_minutes : Int) - 1) * Timeframe.M1.window_millis) +
          (idx : Int) * Timeframe.M1.window_millis
        match lookupByOpen s.buffer.buffer expected_open with
        | some bar => w.push bar
        | none =>
          match lookupByOpen kh.hist_1m expected_open with
          | some bar => w.push bar
          | none => w) (RingBuffer.new Kline kh.indicator_tf.window_minutes)) := by
  exact
    let W : RingBuffer Kline :=
      (List.range kh.indicator_tf.window_minutes).foldl (fun (w : RingBuffer Kline) idx =>
        let expected_open := (Timeframe.M1.nearest_ms now -
          ((kh.indicator_tf.window_minutes : Int) - 1) * Timeframe.M1.window_millis) +
          (idx : Int) * Timeframe.M1.window_millis
        match lookupByOpen s.buffer.buffer expected_open with
        | some bar => w.push bar
        | none =>
          match lookupByOpen kh.hist_1m expected_open with
          | some bar => w.push bar
          | none => w) (RingBuffer.new Kline kh.indicator_tf.window_minutes)
    vol_prime_chain_window ({ s with window_1m_bars := some W } : Volatility) now

theorem rsi_set_window_hist_window (s : Rsi) (now : Int) (kh : KlineHist) :
    (s.set_window_1m_bars_from_history now kh).window_1m_bars = some
      ((List.range kh.indicator_tf.window_minutes).foldl (fun (w : RingBuffer Kline) idx =>
        let expected_open := kh.indicator_tf.nearest_ms now +
          (idx : Int) * Timeframe.M1.window_millis
        match lookupByOpen s.buffer.buffer expected_open with
        | some bar => w.push bar
        | none =>
          match lookupByOpen kh.hist_1m expected_open with
          | some bar => w.push bar
          | none => w) (RingBuffer.new Kline kh.indicator_tf.window_minutes)) := rfl

theorem wilder_step_nonneg (P a g : ℚ) (hP : 1 ≤ P) (ha : 0 ≤ a) (hg : 0 ≤ g) :
    0 ≤ (a * (P - 1) + g) / P := by
  apply div_nonneg
  · exact add_nonneg (mul_nonneg ha (by linarith)) hg
  · linarith

theorem rsi_spec_range (P : ℚ) (prev : PreviousBar) (last : Kline) (hP : 1 ≤ P)
    (hg : 0 ≤ prev.avg_gain) (hl : 0 ≤ prev.avg_loss) :
    0 ≤ rsiValueSpec P prev last ∧ rsiValueSpec P prev last ≤ 100 := by
  simp only [rsiValueSpec]
  have hgain : (0 : ℚ) ≤ max (last.close - prev.close) 0 := le_max_right _ _
  have hloss : (0 : ℚ) ≤ max (-(last.close - prev.close)) 0 := le_max_right _ _
  have hag := wilder_step_nonneg P prev.avg_gain (max (last.close - prev.close) 0) hP hg hgain
  have hal := wilder_step_nonneg P prev.avg_loss (max (-(last.close - prev.close)) 0) hP hl hloss
  split_ifs with h
  · norm_num
  · have hpos : 0 < (prev.avg_loss * (P - 1) + max (-(last.close - prev.close)) 0) / P :=
      lt_of_le_of_ne hal (Ne.symm h)
    have hrs : 0 ≤ (prev.avg_gain * (P - 1) + max (last.close - prev.close) 0) / P /
        ((prev.avg_loss * (P - 1) + max (-(last.close - prev.close)) 0) / P) :=
      div_nonneg hag hal
    constructor
    · have hle : (100 : ℚ) / (1 + (prev.avg_gain * (P - 1) + max (last.close - prev.close) 0) / P /
          ((prev.avg_loss * (P - 1) + max (-(last.close - prev.close)) 0) / P)) ≤ 100 :=
        div_le_self (by norm_num) (by linarith)
      linarith
    · have hgt : (0 : ℚ) < 100 / (1 + (prev.avg_gain * (P - 1) + max (last.close - prev.close) 0) / P /
          ((prev.avg_loss * (P - 1) + max (-(last.close - prev.close)) 0) / P)) :=
        div_pos (by norm_num) (by linarith)
      linarith

theorem gain_eq_max (d : ℚ) : (if d > 0 then d else 0) = max d 0 := by
  rcases lt_or_le 0 d with h | h
  · rw [if_pos h, max_eq_left (le_of_lt h)]
  · rw [if_neg (not_lt.mpr h), max_eq_right h]

theorem loss_eq_max (d : ℚ) : (if d < 0 then -d else 0) = max (-d) 0 := by
  rcases lt_or_le d 0 with h | h
  · rw [if_pos h, max_eq_left (by linarith)]
  · rw [if_neg (not_lt.mpr h), max_eq_right (by linarith)]

theorem set_value_spec (s : Rsi) (w : RingBuffer Kline) (last : Kline) (prev : PreviousBar)
    (hw : s.window_1m_bars = some w) (hb : w.back = some last)
    (hp : s.previous_bar = some prev) :
    (s.set_value).value = some (rsiValueSpec (s.period : ℚ) prev last) := by
  unfold Rsi.set_value
  rw [hw]
  simp only [hb, hp, rsiValueSpec]
  rw [gain_eq_max, loss_eq_max]

theorem set_value_id_of_window_none (s : Rsi) (h : s.window_1m_bars = none) :
    s.set_value = s := by
  unfold Rsi.set_value
  rw [h]

theorem set_value_id_of_back_none (s : Rsi) (w : RingBuffer Kline)
    (hw : s.window_1m_bars = some w) (hb : w.back = none) : s.set_value = s := by
  unfold Rsi.set_value
  rw [hw]
  simp only [hb]

theorem set_value_value_cases (s : Rsi) :
    (s.set_value).value = s.value ∨
    ∃ w last prev, s.window_1m_bars = some w ∧ w.back = some last ∧
      s.previous_bar = some prev ∧
      (s.set_value).value = some (rsiValueSpec (s.period : ℚ) prev last) := by
  cases hw : s.window_1m_bars with
  | none => left; rw [set_value_id_of_window_none s hw]
  | some w =>
    cases hb : w.back with
    | none => left; rw [set_value_id_of_back_none s w hw hb]
    | some last =>
      cases hp : s.previous_bar with
      | none => left; rw [set_value_of_no_prev s hp]
      | some prev =>
        right
        refine ⟨w, last, prev, ?_, hb, ?_, set_value_spec s w last prev hw hb hp⟩ <;> rfl

theorem update_previous_bar_prev_good (s : Rsi) (last : Kline) (hP : 1 ≤ s.period)
    (h : ∀ pb, s.previous_bar = some pb → 0 ≤ pb.avg_gain ∧ 0 ≤ pb.avg_loss) :
    ∀ pb, (s.update_previous_bar_from_last last).previous_bar = some pb →
      0 ≤ pb.avg_gain ∧ 0 ≤ pb.avg_loss := by
  intro pb hpb
  obtain ⟨st, pa, tf, per, buf, win, aggr, prev, val⟩ := s
  cases prev with
  | none => exact h pb hpb
  | some p =>
    have hgood := h p rfl
    simp only [Rsi.update_previous_bar_from_last] at hpb
    simp only [Option.some.injEq] at hpb
    have hP' : (1 : ℚ) ≤ (per : ℚ) := by exact_mod_cast hP
    subst hpb
    constructor
    · refine wilder_step_nonneg _ _ _ hP' hgood.1 ?_
      rw [gain_eq_max]
      exact le_max_right _ _
    · refine wilder_step_nonneg _ _ _ hP' hgood.2 ?_
      rw [loss_eq_max]
      exact le_max_right _ _

theorem update_window_prev_good (s : Rsi) (now : Int) (bar : Kline) (hP : 1 ≤ s.period)
    (h : ∀ pb, s.previous_bar = some pb → 0 ≤ pb.avg_gain ∧ 0 ≤ pb.avg_loss) :
    ∀ pb, (s.update_window now bar).previous_bar = some pb →
      0 ≤ pb.avg_gain ∧ 0 ≤ pb.avg_loss := by
  obtain ⟨st, pa, tf, per, buf, win, aggr, prev, val⟩ := s
  unfold Rsi.update_window
  cases win with
  | none => exact h
  | some w =>
    simp only
    cases w.back with
    | none => exact h
    | some last =>
      simp only
      split
      · exact h
      · split
        · exact h
        · split
          · intro pb hpb
            refine update_previous_bar_prev_good _ last ?_ ?_ pb hpb
            · rw [(set_aggregate_keeps _).2.2.1]
              exact hP
            · rw [(set_aggregate_keeps _).2.2.2.2.2.1]
              exact h
          · intro pb hpb
            rw [(set_aggregate_keeps _).2.2.2.2.2.1] at hpb
            exact h pb hpb

theorem initGainsLosses_fold_nonneg (idxs : List Nat) (closes : List ℚ) :
    ∀ (init : ℚ × ℚ), 0 ≤ init.1 → 0 ≤ init.2 →
      0 ≤ (idxs.foldl (fun (gl : ℚ × ℚ) i =>
        let diff := closes.getD (i + 1) 0 - closes.getD i 0
        if diff ≥ 0 then (gl.1 + diff, gl.2) else (gl.1, gl.2 - diff)) init).1 ∧
      0 ≤ (idxs.foldl (fun (gl : ℚ × ℚ) i =>
        let diff := closes.getD (i + 1) 0 - closes.getD i 0
        if diff ≥ 0 then (gl.1 + diff, gl.2) else (gl.1, gl.2 - diff)) init).2 := by
  induction idxs with
  | nil => intro init h1 h2; exact ⟨h1, h2⟩
  | cons i rest ih =>
    intro init h1 h2
    rw [List.foldl_cons]
    by_cases hd : closes.getD (i + 1) 0 - closes.getD i 0 ≥ 0
    · rw [if_pos hd]
      refine ih _ ?_ h2
      show (0 : ℚ) ≤ init.1 + (closes.getD (i + 1) 0 - closes.getD i 0)
      linarith
    · rw [if_neg hd]
      push_neg at hd
      refine ih _ h1 ?_
      show (0 : ℚ) ≤ init.2 - (closes.getD (i + 1) 0 - closes.getD i 0)
      linarith

theorem initGainsLosses_nonneg (closes : List ℚ) (period : Nat) :
    0 ≤ (Rsi.initGainsLosses closes period).1 ∧ 0 ≤ (Rsi.initGainsLosses closes period).2 := by
  unfold Rsi.initGainsLosses
  exact initGainsLosses_fold_nonneg (List.range period) closes (0, 0) le_rfl le_rfl

theorem wilderLoop_fold_nonneg (idxs : List Nat) (closes : List ℚ) (P : ℚ) (hP : 1 ≤ P) :
    ∀ (init : ℚ × ℚ), 0 ≤ init.1 → 0 ≤ init.2 →
      0 ≤ (idxs.foldl (fun (avg : ℚ × ℚ) i =>
        let diff := closes.getD i 0 - closes.getD (i - 1) 0
        let gain := if diff > 0 then diff else 0
        let loss := if diff < 0 then -diff else 0
        ((avg.1 * (P - 1) + gain) / P, (avg.2 * (P - 1) + loss) / P)) init).1 ∧
      0 ≤ (idxs.foldl (fun (avg : ℚ × ℚ) i =>
        let diff := closes.getD i 0 - closes.getD (i - 1) 0
        let gain := if diff > 0 then diff else 0
        let loss := if diff < 0 then -diff else 0
        ((avg.1 * (P - 1) + gain) / P, (avg.2 * (P - 1) + loss) / P)) init).2 := by
  induction idxs with
  | nil => intro init h1 h2; exact ⟨h1, h2⟩
  | cons i rest ih =>
    intro init h1 h2
    rw [List.foldl_cons]
    refine ih _ ?_ ?_
    · refine wilder_step_nonneg P init.1 _ hP h1 ?_
      rw [gain_eq_max]
      exact le_max_right _ _
    · refine wilder_step_nonneg P init.2 _ hP h2 ?_
      rw [loss_eq_max]
      exact le_max_right _ _

theorem wilderLoop_nonneg (closes : List ℚ) (period : Nat) (init : ℚ × ℚ)
    (hP : 1 ≤ period) (h1 : 0 ≤ init.1) (h2 : 0 ≤ init.2) :
    0 ≤ (Rsi.wilderLoop closes period init).1 ∧ 0 ≤ (Rsi.wilderLoop closes period init).2 := by
  unfold Rsi.wilderLoop
  exact wilderLoop_fold_nonneg _ closes (period : ℚ) (by exact_mod_cast hP) init h1 h2

theorem set_prev_hist_good (s : Rsi) (now : Int) (input : KlineHist) (hP : 1 ≤ s.period) :
    ∀ pb, (s.set_previous_bar_from_history now input).previous_bar = some pb →
      0 ≤ pb.avg_gain ∧ 0 ≤ pb.avg_loss := by
  obtain ⟨st, pa, tf, per, buf, win, aggr, prev, val⟩ := s
  simp only [Rsi.set_previous_bar_from_history]
  split
  · intro pb hpb
    exact absurd hpb (by simp)
  · split
    · intro pb hpb
      simp only [Option.some.injEq] at hpb
      have hinit := initGainsLosses_nonneg (List.map (fun bar => bar.close)
        (List.filter (fun bar => decide (bar.open_time ≤
          input.indicator_tf.nearest_ms now - input.indicator_tf.window_millis)) input.hist_tf)) per
      have hper : (0 : ℚ) ≤ (per : ℚ) := by positivity
      have hw := wilderLoop_nonneg (List.map (fun bar => bar.close)
        (List.filter (fun bar => decide (bar.open_time ≤
          input.indicator_tf.nearest_ms now - input.indicator_tf.window_millis)) input.hist_tf))
        per (_, _) hP (div_nonneg hinit.1 hper) (div_nonneg hinit.2 hper)
      subst hpb
      exact hw
    · intro pb hpb
      exact absurd hpb (by simp)

theorem rsi_update_good (s : Rsi) (now : Int) (bar : Kline) (h : RsiGood s) :
    RsiGood (s.update now bar).1 ∧
    ∀ v, (s.update now bar).2 = some v → 0 ≤ v ∧ v ≤ 100 := by
  obtain ⟨hP, hprev, hval⟩ := h
  unfold Rsi.update
  cases hst : s.stage with
  | New =>
    refine ⟨⟨?_, ?_, ?_⟩, ?_⟩
    · rw [(update_buffer_keeps _ _).2.2.1]; exact hP
    · rw [(update_buffer_keeps _ _).2.2.2.2.1]; exact hprev
    · rw [(update_buffer_keeps _ _).2.2.2.2.2]; exact hval
    · intro v hv; exact absurd hv (by simp)
  | WarmUp =>
    refine ⟨⟨?_, ?_, ?_⟩, ?_⟩
    · rw [(update_buffer_keeps _ _).2.2.1]; exact hP
    · rw [(update_buffer_keeps _ _).2.2.2.2.1]; exact hprev
    · rw [(update_buffer_keeps _ _).2.2.2.2.2]; exact hval
    · intro v hv; exact absurd hv (by simp)
  | Ready =>
    simp only
    have h1P : 1 ≤ (s.update_window now bar).period := by
      rw [(update_window_keeps s now bar).2.2.1]; exact hP
    have h1prev := update_window_prev_good s now bar hP hprev
    have h1val : ∀ v, (s.update_window now bar).value = some v → 0 ≤ v ∧ v ≤ 100 := by
      rw [(update_window_keeps s now bar).2.2.2.2]; exact hval
    have h2val : ∀ v, ((s.update_window now bar).set_value).value = some v →
        0 ≤ v ∧ v ≤ 100 := by
      rcases set_value_value_cases (s.update_window now bar) with hc | ⟨w, last, prev, hw, hb, hp, hc⟩
      · rw [hc]; exact h1val
      · intro v hv
        rw [hc] at hv
        obtain rfl : rsiValueSpec ((s.update_window now bar).period : ℚ) prev last = v :=
          Option.some.inj hv
        exact rsi_spec_range _ prev last (by exact_mod_cast h1P) (h1prev prev hp).1
          (h1prev prev hp).2
    refine ⟨⟨?_, ?_, h2val⟩, fun v hv => h2val v hv⟩
    · rw [(set_value_keeps _).2.2.1]; exact h1P
    · rw [(set_value_keeps _).2.2.2.2.2]; exact h1prev

theorem rsi_update_khist_good (s : Rsi) (now : Int) (kh : KlineHist) (h : RsiGood s) :
    RsiGood (s.update_khist now kh) := by
  obtain ⟨hP, hprev, hval⟩ := h
  rw [update_khist_unfold]
  set A := ({ s.set_window_1m_bars_from_history now kh with
    buffer := (s.set_window_1m_bars_from_history now kh).buffer.clear } : Rsi).set_aggregate.set_previous_bar_from_history
      now kh with hA
  have hAper : A.period = s.period := by
    rw [hA, (set_prev_hist_keeps _ _ _).2.2.1, (set_aggregate_keeps _).2.2.1]
    show (s.set_window_1m_bars_from_history now kh).period = s.period
    exact (set_window_hist_keeps s now kh).2.2.1
  have hAprev : ∀ pb, A.previous_bar = some pb → 0 ≤ pb.avg_gain ∧ 0 ≤ pb.avg_loss := by
    rw [hA]
    apply set_prev_hist_good
    rw [(set_aggregate_keeps _).2.2.1]
    show 1 ≤ (s.set_window_1m_bars_from_history now kh).period
    rw [(set_window_hist_keeps s now kh).2.2.1]
    exact hP
  have hAval : ∀ v, A.value = some v → 0 ≤ v ∧ v ≤ 100 := by
    rw [hA, (set_prev_hist_keeps _ _ _).2.2.2.2.2, (set_aggregate_keeps _).2.2.2.2.2.2]
    show ∀ v, (s.set_window_1m_bars_from_history now kh).value = some v → _
    rw [(set_window_hist_keeps s now kh).2.2.2.2.2]
    exact hval
  have hsv : ∀ v, (A.set_value).value = some v → 0 ≤ v ∧ v ≤ 100 := by
    rcases set_value_value_cases A with hc | ⟨w, last, prev, hw, hb, hp, hc⟩
    · rw [hc]; exact hAval
    · intro v hv
      rw [hc] at hv
      obtain rfl : rsiValueSpec (A.period : ℚ) prev last = v := Option.some.inj hv
      refine rsi_spec_range _ prev last ?_ (hAprev prev hp).1 (hAprev prev hp).2
      rw [hAper]
      exact_mod_cast hP
  refine ⟨?_, ?_, ?_⟩
  · show 1 ≤ (A.set_value).period
    rw [(set_value_keeps _).2.2.1, hAper]
    exact hP
  · show ∀ pb, (A.set_value).previous_bar = some pb → _
    rw [(set_value_keeps _).2.2.2.2.2]
    exact hAprev
  · show ∀ v, (A.set_value).value = some v → _
    exact hsv

theorem window_millis_pos (tf : Timeframe) : 0 < tf.window_millis := by
  cases tf <;> decide

theorem window_minutes_pos (tf : Timeframe) : 0 < tf.window_minutes := by
  cases tf <;> decide

theorem tmod_eq_emod_of_nonneg (a b : Int) (ha : 0 ≤ a) : a.tmod b = a % b := by
  match a, ha with
  | Int.ofNat m, _ => cases b <;> rfl

theorem nearest_ms_eq_emod (tf : Timeframe) (t : Int) (h : 0 ≤ t) :
    tf.nearest_ms t = t - t % tf.window_millis := by
  unfold Timeframe.nearest_ms
  rw [tmod_eq_emod_of_nonneg t _ h]

theorem nearest_ms_eq_mul_ediv (tf : Timeframe) (t : Int) (h : 0 ≤ t) :
    tf.nearest_ms t = tf.window_millis * (t / tf.window_millis) := by
  rw [nearest_ms_eq_emod tf t h, Int.emod_def]
  ring

theorem nearest_ms_le (tf : Timeframe) (t : Int) (h : 0 ≤ t) : tf.nearest_ms t ≤ t := by
  rw [nearest_ms_eq_emod tf t h]
  have := Int.emod_nonneg t (ne_of_gt (window_millis_pos tf))
  linarith

theorem lt_nearest_ms_add (tf : Timeframe) (t : Int) (h : 0 ≤ t) :
    t < tf.nearest_ms t + tf.window_millis := by
  rw [nearest_ms_eq_emod tf t h]
  have := Int.emod_lt_of_pos t (window_millis_pos tf)
  linarith

theorem nearest_ms_nonneg (tf : Timeframe) (t : Int) (h : 0 ≤ t) : 0 ≤ tf.nearest_ms t := by
  rw [nearest_ms_eq_mul_ediv tf t h]
  exact mul_nonneg (le_of_lt (window_millis_pos tf))
    (Int.ediv_nonneg h (le_of_lt (window_millis_pos tf)))

theorem nearest_ms_mono (tf : Timeframe) {a b : Int} (ha : 0 ≤ a) (hab : a ≤ b) :
    tf.nearest_ms a ≤ tf.nearest_ms b := by
  rw [nearest_ms_eq_mul_ediv tf a ha, nearest_ms_eq_mul_ediv tf b (le_trans ha hab)]
  exact mul_le_mul_of_nonneg_left (Int.ediv_le_ediv (window_millis_pos tf) hab)
    (le_of_lt (window_millis_pos tf))

theorem nearest_ms_eq_of_mem (tf : Timeframe) {a b : Int} (ha : 0 ≤ a)
    (h1 : tf.nearest_ms a ≤ b) (h2 : b < tf.nearest_ms a + tf.window_millis) :
    tf.nearest_ms b = tf.nearest_ms a := by
  have hw := window_millis_pos tf
  have hb : 0 ≤ b := le_trans (nearest_ms_nonneg tf a ha) h1
  rw [nearest_ms_eq_mul_ediv tf a ha] at h1 h2 ⊢
  rw [nearest_ms_eq_mul_ediv tf b hb]
  have hq : b / tf.window_millis = a / tf.window_millis := by
    have := (Int.ediv_emod_unique (a := b) (b := tf.window_millis)
      (r := b - tf.window_millis * (a / tf.window_millis))
      (q := a / tf.window_millis) hw).mpr ⟨by ring, by linarith, by linarith⟩
    exact this.1
  rw [hq]

theorem push_capacity (r : RingBuffer Kline) (x : Kline) : (r.push x).capacity = r.capacity := rfl

theorem replace_last_capacity (r : RingBuffer Kline) (x : Kline) :
    (r.replace_last x).capacity = r.capacity := by
  unfold RingBuffer.replace_last
  split <;> rfl

theorem retain_capacity (r : RingBuffer Kline) (p : Int → Bool) :
    (r.retain_by_open_time p).capacity = r.capacity := rfl

theorem push_len_le (r : RingBuffer Kline) (x : Kline) (hcap : 0 < r.capacity)
    (h : r.buffer.length ≤ r.capacity) : (r.push x).buffer.length ≤ r.capacity := by
  simp only [RingBuffer.push]
  split
  · simp only [List.length_append, List.length_tail, List.length_cons, List.length_nil]
    omega
  · simp only [List.length_append, List.length_cons, List.length_nil]
    omega

theorem push_mem (r : RingBuffer Kline) (x y : Kline) (hy : y ∈ (r.push x).buffer) :
    y ∈ r.buffer ∨ y = x := by
  simp only [RingBuffer.push] at hy
  rcases List.mem_append.mp hy with h | h
  · left
    split at h
    · exact (List.tail_sublist _).mem h
    · exact h
  · right
    simpa using h

theorem push_sorted (r : RingBuffer Kline) (x : Kline)
    (hs : r.buffer.Pairwise (fun a b => a.open_time ≤ b.open_time))
    (hx : ∀ y ∈ r.buffer, y.open_time ≤ x.open_time) :
    (r.push x).buffer.Pairwise (fun a b => a.open_time ≤ b.open_time) := by
  simp only [RingBuffer.push]
  apply List.pairwise_append.mpr
  refine ⟨?_, List.pairwise_singleton _ _, ?_⟩
  · split
    · exact hs.sublist (List.tail_sublist _)
    · exact hs
  · intro a ha b hb
    obtain rfl : b = x := by simpa using hb
    split at ha
    · exact hx a ((List.tail_sublist _).mem ha)
    · exact hx a ha

theorem pairwise_le_back {l : List Kline}
    (h : l.Pairwise (fun a b => a.open_time ≤ b.open_time)) {m : Kline}
    (hb : l.getLast? = some m) : ∀ y ∈ l, y.open_time ≤ m.open_time := by
  induction l with
  | nil => simp at hb
  | cons x rest ih =>
    intro y hy
    cases rest with
    | nil =>
      simp only [List.getLast?_singleton, Option.some.injEq] at hb
      obtain rfl : y = x := by simpa using hy
      rw [hb]
    | cons z rest' =>
      have hb' : (z :: rest').getLast? = some m := by
        rw [← hb, List.getLast?_cons_cons]
      have hm : m ∈ z :: rest' := by
        have := List.getLast?_eq_getLast (z :: rest') (by simp)
        rw [this] at hb'
        obtain rfl : m = (z :: rest').getLast (by simp) := by
          exact (Option.some.inj hb').symm
        exact List.getLast_mem _
      rcases List.mem_cons.mp hy with rfl | hy'
      · exact (List.pairwise_cons.mp h).1 m hm
      · exact ih (List.pairwise_cons.mp h).2 hb' y hy'

theorem back_eq_none_iff (r : RingBuffer Kline) : r.back = none ↔ r.buffer = [] := by
  unfold RingBuffer.back
  exact List.getLast?_eq_none_iff

theorem pairwise_front_le {l : List Kline}
    (h : l.Pairwise (fun a b => a.open_time ≤ b.open_time)) {m : Kline}
    (hf : l.head? = some m) : ∀ y ∈ l, m.open_time ≤ y.open_time := by
  cases l with
  | nil => simp at hf
  | cons x rest =>
    obtain rfl : x = m := by simpa using hf
    intro y hy
    rcases List.mem_cons.mp hy with rfl | hy'
    · exact le_refl _
    · exact (List.pairwise_cons.mp h).1 y hy'

theorem rsi_window_step (s : Rsi) (w : RingBuffer Kline) (pt : Int) (bar : Kline)
    (hw : s.window_1m_bars = some w)
    (hcap : w.capacity = s.tf.window_minutes)
    (hlen : w.buffer.length ≤ s.tf.window_minutes)
    (hsort : WindowSorted w)
    (hbnd : ∀ y ∈ w.buffer, s.tf.nearest_ms pt ≤ y.open_time ∧
      y.open_time < s.tf.nearest_ms pt + s.tf.window_millis)
    (hpt : 0 ≤ pt) (hb0 : 0 ≤ bar.open_time) (hmono : pt ≤ bar.open_time) :
    ∃ w', (s.update_window bar.open_time bar).window_1m_bars = some w' ∧
      w'.capacity = s.tf.window_minutes ∧
      w'.buffer.length ≤ s.tf.window_minutes ∧
      WindowSorted w' ∧
      ∀ y ∈ w'.buffer, s.tf.nearest_ms bar.open_time ≤ y.open_time ∧
        y.open_time < s.tf.nearest_ms bar.open_time + s.tf.window_millis := by
  obtain ⟨st, pa, tf0, per, buf, win, aggr, prev, val⟩ := s
  simp only at hw hcap hlen hbnd ⊢
  subst hw
  have hTpos : 0 < tf0.window_minutes := window_minutes_pos tf0
  have hF : tf0.nearest_ms pt ≤ tf0.nearest_ms bar.open_time := nearest_ms_mono tf0 hpt hmono
  have hbarlow : tf0.nearest_ms bar.open_time ≤ bar.open_time := nearest_ms_le tf0 _ hb0
  have hbarhigh : bar.open_time < tf0.nearest_ms bar.open_time + tf0.window_millis :=
    lt_nearest_ms_add tf0 _ hb0
  unfold Rsi.update_window
  simp only
  cases hback : w.back with
  | none =>
    have hempty : w.buffer = [] := (back_eq_none_iff w).mp hback
    refine ⟨w.push bar, rfl, by rw [push_capacity]; exact hcap, ?_, ?_, ?_⟩
    · have : (w.push bar).buffer = [bar] := by
        simp only [RingBuffer.push, hempty]
        rw [if_neg (by simp; omega)]
        simp
      rw [this]
      simpa using hTpos
    · show (w.push bar).buffer.Pairwise _
      have : (w.push bar).buffer = [bar] := by
        simp only [RingBuffer.push, hempty]
        rw [if_neg (by simp; omega)]
        simp
      rw [this]
      exact List.pairwise_singleton _ _
    · intro y hy
      have : (w.push bar).buffer = [bar] := by
        simp only [RingBuffer.push, hempty]
        rw [if_neg (by simp; omega)]
        simp
      rw [this] at hy
      obtain rfl : y = bar := by simpa using hy
      exact ⟨hbarlow, hbarhigh⟩
  | some last =>
    have hlastmem : last ∈ w.buffer := by
      have hb' : w.buffer.getLast? = some last := hback
      have hne' : w.buffer ≠ [] := by
        intro h
        rw [h] at hb'
        simp at hb'
      rw [List.getLast?_eq_getLast w.buffer hne'] at hb'
      rw [← Option.some.inj hb']
      exact List.getLast_mem _
    have hlastbnd := hbnd last hlastmem
    have hne : w.buffer ≠ [] := by
      intro h
      rw [h] at hlastmem
      simp at hlastmem
    simp only
    by_cases heq : last.open_time = bar.open_time
    · rw [if_pos heq]
      have hFeq : tf0.nearest_ms bar.open_time = tf0.nearest_ms pt := by
        apply nearest_ms_eq_of_mem tf0 hpt
        · rw [← heq]; exact hlastbnd.1
        · rw [← heq]; exact hlastbnd.2
      have hbuf : (w.replace_last bar).buffer = w.buffer.dropLast ++ [bar] := by
        simp only [RingBuffer.replace_last]
        rw [if_neg (by simpa [List.isEmpty_iff] using hne)]
      refine ⟨w.replace_last bar, rfl, by rw [replace_last_capacity]; exact hcap, ?_, ?_, ?_⟩
      · rw [hbuf]
        simp only [List.length_append, List.length_dropLast, List.length_cons, List.length_nil]
        have : 0 < w.buffer.length := List.length_pos_of_ne_nil hne
        omega
      · show (w.replace_last bar).buffer.Pairwise _
        rw [hbuf]
        apply List.pairwise_append.mpr
        refine ⟨hsort.sublist (List.dropLast_sublist _), List.pairwise_singleton _ _, ?_⟩
        intro a ha b hb
        obtain rfl : b = bar := by simpa using hb
        have := pairwise_le_back hsort hback a ((List.dropLast_sublist _).mem ha)
        rw [heq] at this
        exact this
      · intro y hy
        rw [hbuf] at hy
        rw [hFeq]
        rcases List.mem_append.mp hy with h | h
        · exact hbnd y ((List.dropLast_sublist _).mem h)
        · obtain rfl : y = bar := by simpa using h
          rw [← heq]
          exact hlastbnd
    · rw [if_neg heq]
      by_cases hgt : last.open_time > bar.open_time
      · rw [if_pos hgt]
        have hFeq : tf0.nearest_ms bar.open_time = tf0.nearest_ms pt := by
          apply nearest_ms_eq_of_mem tf0 hpt
          · exact le_trans (le_trans (nearest_ms_le tf0 pt hpt) hmono) (le_refl _)
          · exact lt_trans hgt hlastbnd.2
        refine ⟨w, rfl, hcap, hlen, hsort, ?_⟩
        intro y hy
        rw [hFeq]
        exact hbnd y hy
      · rw [if_neg hgt]
        have hlt : last.open_time < bar.open_time :=
          lt_of_le_of_ne (not_lt.mp hgt) heq
        have hcross : ∀ y ∈ w.buffer, y.open_time ≤ bar.open_time := by
          intro y hy
          exact le_trans (pairwise_le_back hsort hback y hy) (le_of_lt hlt)
        by_cases htrim : (Option.map (fun first =>
            decide (first.open_time < tf0.nearest_ms bar.open_time)) w.front).getD false = true
        · rw [if_pos htrim]
          set w1 := w.retain_by_open_time
            (fun ts => decide (ts ≥ tf0.nearest_ms bar.open_time)) with hw1
          refine ⟨w1.push bar, ?_, ?_, ?_, ?_, ?_⟩
          · rw [(update_previous_bar_keeps _ _).2.2.2.2.1, (set_aggregate_keeps _).2.2.2.2.1]
            show some ((if (Option.map (fun first =>
              decide (first.open_time < tf0.nearest_ms bar.open_time)) w.front).getD false = true
              then w1 else w).push bar) = some (w1.push bar)
            rw [if_pos htrim]
          · rw [push_capacity, hw1, retain_capacity]
            exact hcap
          · rw [← hcap]
            apply push_len_le
            · rw [hw1, retain_capacity, hcap]
              exact hTpos
            · rw [hw1, retain_capacity]
              calc w1.buffer.length ≤ w.buffer.length := by
                    rw [hw1]
                    exact List.length_filter_le _ _
                _ ≤ w.capacity := by rw [hcap]; exact hlen
          · apply push_sorted
            · exact hsort.sublist (List.filter_sublist _)
            · intro y hy
              exact hcross y ((List.filter_sublist _).mem hy)
          · intro y hy
            rcases push_mem w1 bar y hy with h | rfl
            · have hmemw : y ∈ w.buffer := (List.filter_sublist _).mem h
              constructor
              · have := List.of_mem_filter h
                exact of_decide_eq_true this
              · calc y.open_time < tf0.nearest_ms pt + tf0.window_millis := (hbnd y hmemw).2
                  _ ≤ tf0.nearest_ms bar.open_time + tf0.window_millis := by linarith
            · exact ⟨hbarlow, hbarhigh⟩
        · rw [if_neg htrim]
          have hfront : ∀ y ∈ w.buffer, tf0.nearest_ms bar.open_time ≤ y.open_time := by
            cases hhead : w.buffer.head? with
            | none =>
              rw [List.head?_eq_none_iff] at hhead
              exact absurd hhead hne
            | some f =>
              have hfge : ¬ (f.open_time < tf0.nearest_ms bar.open_time) := by
                intro hcon
                apply htrim
                show (Option.map _ w.front).getD false = true
                rw [show w.front = some f from hhead]
                simpa using hcon
              intro y hy
              exact le_trans (not_lt.mp hfge) (pairwise_front_le hsort hhead y hy)
          refine ⟨w.push bar, ?_, ?_, ?_, ?_, ?_⟩
          · rw [(set_aggregate_keeps _).2.2.2.2.1]
            show some ((if (Option.map (fun first =>
              decide (first.open_time < tf0.nearest_ms bar.open_time)) w.front).getD false = true
              then w.retain_by_open_time (fun ts =>
                decide (ts ≥ tf0.nearest_ms bar.open_time)) else w).push bar) = some (w.push bar)
            rw [if_neg htrim]
          · rw [push_capacity]
            exact hcap
          · rw [← hcap]
            apply push_len_le
            · rw [hcap]; exact hTpos
            · rw [hcap]; exact hlen
          · exact push_sorted w bar hsort hcross
          · intro y hy
            rcases push_mem w bar y hy with h | rfl
            · refine ⟨hfront y h, ?_⟩
              calc y.open_time < tf0.nearest_ms pt + tf0.window_millis := (hbnd y h).2
                _ ≤ tf0.nearest_ms bar.open_time + tf0.window_millis := by linarith
            · exact ⟨hbarlow, hbarhigh⟩

theorem rsi_update_ready (s : Rsi) (now : Int) (bar : Kline) (hst : s.stage = Stage.Ready) :
    (s.update now bar).1 = (s.update_window now bar).set_value := by
  simp only [Rsi.update, hst]

theorem rsi_feed_inv (bars : List Kline) :
    ∀ (s : Rsi) (w : RingBuffer Kline) (pt : Int),
      s.stage = Stage.Ready →
      s.window_1m_bars = some w →
      w.capacity = s.tf.window_minutes →
      w.buffer.length ≤ s.tf.window_minutes →
      WindowSorted w →
      (∀ y ∈ w.buffer, s.tf.nearest_ms pt ≤ y.open_time ∧
        y.open_time < s.tf.nearest_ms pt + s.tf.window_millis) →
      0 ≤ pt →
      List.Chain' (· ≤ ·) (pt :: bars.map (fun b => b.open_time)) →
      (∀ b ∈ bars, 0 ≤ b.open_time) →
      ∃ w', ((s.feedLive bars).1).window_1m_bars = some w' ∧
        ((s.feedLive bars).1).stage = Stage.Ready ∧
        ((s.feedLive bars).1).tf = s.tf ∧
        w'.capacity = s.tf.window_minutes ∧
        w'.buffer.length ≤ s.tf.window_minutes ∧
        WindowSorted w' ∧
        ∀ y ∈ w'.buffer,
          s.tf.nearest_ms ((bars.map (fun b => b.open_time)).getLastD pt) ≤ y.open_time ∧
          y.open_time < s.tf.nearest_ms ((bars.map (fun b => b.open_time)).getLastD pt) +
            s.tf.window_millis := by
  induction bars with
  | nil =>
    intro s w pt hst hw hcap hlen hsort hbnd hpt _ _
    exact ⟨w, hw, hst, rfl, hcap, hlen, hsort, hbnd⟩
  | cons b rest ih =>
    intro s w pt hst hw hcap hlen hsort hbnd hpt hchain hnn
    have hb0 : 0 ≤ b.open_time := hnn b (List.mem_cons_self _ _)
    have hmono : pt ≤ b.open_time := by
      have := hchain.rel_head
      simpa using this
    obtain ⟨w1, hw1, hcap1, hlen1, hsort1, hbnd1⟩ :=
      rsi_window_step s w pt b hw hcap hlen hsort hbnd hpt hb0 hmono
    have hupd : (s.update b.open_time b).1 = (s.update_window b.open_time b).set_value :=
      rsi_update_ready s b.open_time b hst
    have hst1 : (s.update b.open_time b).1.stage = Stage.Ready := by
      rw [hupd, (set_value_keeps _).1, (update_window_keeps _ _ _).1]
      exact hst
    have htf1 : (s.update b.open_time b).1.tf = s.tf := by
      rw [hupd, (set_value_keeps _).2.1, (update_window_keeps _ _ _).2.1]
    have hwin1 : (s.update b.open_time b).1.window_1m_bars = some w1 := by
      rw [hupd, (set_value_keeps _).2.2.2.2.1]
      exact hw1
    have hfeed : (s.feedLive (b :: rest)).1 = ((s.update b.open_time b).1.feedLive rest).1 := by
      simp only [Rsi.feedLive]
    have hchain' : List.Chain' (· ≤ ·) (b.open_time :: rest.map (fun x => x.open_time)) := by
      have := hchain.tail
      simpa using this
    obtain ⟨w', hw', hstR, htfR, hcapR, hlenR, hsortR, hbndR⟩ :=
      ih (s.update b.open_time b).1 w1 b.open_time hst1 hwin1
        (by rw [htf1]; exact hcap1)
        (by rw [htf1]; exact hlen1)
        hsort1
        (by rw [htf1]; exact hbnd1)
        hb0 hchain'
        (fun x hx => hnn x (List.mem_cons_of_mem _ hx))
    rw [htf1] at htfR hcapR hlenR hbndR
    refine ⟨w', ?_, ?_, ?_, ?_, ?_, ?_, ?_⟩
    · rw [hfeed]; exact hw'
    · rw [hfeed]; exact hstR
    · rw [hfeed]; exact htfR
    · exact hcapR
    · exact hlenR
    · exact hsortR
    · rw [List.map_cons, List.getLastD_cons]
      exact hbndR

theorem upsert_mem {κ ν : Type} [DecidableEq κ] {l : List (κ × ν)} {k : κ} {v : ν}
    {kv : κ × ν} (h : kv ∈ upsert l k v) : kv ∈ l ∨ kv = (k, v) := by
  unfold upsert at h
  split at h
  · rcases List.mem_map.mp h with ⟨p, hp, hkv⟩
    split at hkv
    · right; exact hkv.symm
    · left; rw [← hkv]; exact hp
  · rcases List.mem_cons.mp h with h | h
    · right; exact h
    · left; exact h

theorem rsi_update_not_ready (s : Rsi) (now : Int) (bar : Kline)
    (h : s.stage ≠ Stage.Ready) :
    (s.update now bar).2 = none ∧ (s.update now bar).1.stage ≠ Stage.Ready := by
  unfold Rsi.update
  cases hst : s.stage with
  | New =>
    refine ⟨rfl, ?_⟩
    rw [(update_buffer_keeps _ _).1]
    simp
  | WarmUp =>
    refine ⟨rfl, ?_⟩
    rw [(update_buffer_keeps _ _).1, hst]
    simp
  | Ready => exact absurd hst h

theorem vol_update_buffer_stage (s : Volatility) (bar : Kline) :
    (s.update_buffer bar).stage = s.stage := by
  obtain ⟨st, pa, tf, buf, win, aggr, val⟩ := s
  unfold Volatility.update_buffer
  cases buf.back with
  | none => rfl
  | some last =>
    simp only
    split
    · rfl
    · split
      · rfl
      · rfl

theorem vol_update_not_ready (s : Volatility) (now : Int) (bar : Kline)
    (h : s.stage ≠ Stage.Ready) :
    (s.update now bar).2 = none ∧ (s.update now bar).1.stage ≠ Stage.Ready := by
  unfold Volatility.update
  cases hst : s.stage with
  | New =>
    refine ⟨rfl, ?_⟩
    rw [vol_update_buffer_stage]
    simp
  | WarmUp =>
    refine ⟨rfl, ?_⟩
    rw [vol_update_buffer_stage, hst]
    simp
  | Ready => exact absurd hst h

theorem manager_update_noready (m : IndicatorManager) (now : Int) (pair : String)
    (tf : Timeframe) (name : IndicatorName) (bar : Kline) (h : NoReadyCalcs m) :
    NoReadyCalcs (m.update now pair tf name bar).1 ∧
    (m.update now pair tf name bar).2.into_rsi_value = none ∧
    (m.update now pair tf name bar).2.into_volatility_value = none := by
  obtain ⟨hrsi, hvol⟩ := h
  cases name with
  | Rsi =>
    have hstage : ((alookup m.rsi (pair, tf, IndicatorName.Rsi)).getD
        (Rsi.new 14 tf pair)).stage ≠ Stage.Ready := by
      cases hl : alookup m.rsi (pair, tf, IndicatorName.Rsi) with
      | none => simp [Rsi.new]
      | some entry =>
        have := hrsi _ (alookup_mem hl)
        simpa using this
    have hupd := rsi_update_not_ready _ now bar hstage
    refine ⟨⟨?_, ?_⟩, ?_, ?_⟩
    · intro kv hkv
      rcases upsert_mem hkv with hin | heq
      · exact hrsi kv hin
      · rw [heq]
        exact hupd.2
    · exact hvol
    · show (IndicatorResult.Rsi _).into_rsi_value = none
      simp [IndicatorResult.into_rsi_value]
      exact hupd.1
    · rfl
  | Volatility =>
    have hstage : ((alookup m.vol (pair, tf, IndicatorName.Volatility)).getD
        (Volatility.new tf pair)).stage ≠ Stage.Ready := by
      cases hl : alookup m.vol (pair, tf, IndicatorName.Volatility) with
      | none => simp [Volatility.new]
      | some entry =>
        have := hvol _ (alookup_mem hl)
        simpa using this
    have hupd := vol_update_not_ready _ now bar hstage
    refine ⟨⟨?_, ?_⟩, ?_, ?_⟩
    · exact hrsi
    · intro kv hkv
      rcases upsert_mem hkv with hin | heq
      · exact hvol kv hin
      · rw [heq]
        exact hupd.2
    · rfl
    · show (IndicatorResult.Volatility _).into_volatility_value = none
      simp [IndicatorResult.into_volatility_value]
      exact hupd.1

theorem rsi_fold_quiet (tfs : List Timeframe) (lookup : IndexLookup) (pair : String)
    (bar : Kline) (now : Int) :
    ∀ (e : Engine), NoReadyCalcs e.indicators →
      NoReadyCalcs ((tfs.foldl (fun (e : Engine) tf =>
        let r := e.indicators.update now pair tf IndicatorName.Rsi bar
        let e' := { e with indicators := r.1 }
        match r.2.into_rsi_value with
        | some val => e'.push_result lookup pair IndicatorName.Rsi tf val
        | none => e') e)).indicators ∧
      ((tfs.foldl (fun (e : Engine) tf =>
        let r := e.indicators.update now pair tf IndicatorName.Rsi bar
        let e' := { e with indicators := r.1 }
        match r.2.into_rsi_value with
        | some val => e'.push_result lookup pair IndicatorName.Rsi tf val
        | none => e') e)).pending_results = e.pending_results ∧
      ((tfs.foldl (fun (e : Engine) tf =>
        let r := e.indicators.update now pair tf IndicatorName.Rsi bar
        let e' := { e with indicators := r.1 }
        match r.2.into_rsi_value with
        | some val => e'.push_result lookup pair IndicatorName.Rsi tf val
        | none => e') e)).config = e.config ∧
      ((tfs.foldl (fun (e : Engine) tf =>
        let r := e.indicators.update now pair tf IndicatorName.Rsi bar
        let e' := { e with indicators := r.1 }
        match r.2.into_rsi_value with
        | some val => e'.push_result lookup pair IndicatorName.Rsi tf val
        | none => e') e)).warmup_pending = e.warmup_pending ∧
      ((tfs.foldl (fun (e : Engine) tf =>
        let r := e.indicators.update now pair tf IndicatorName.Rsi bar
        let e' := { e with indicators := r.1 }
        match r.2.into_rsi_value with
        | some val => e'.push_result lookup pair IndicatorName.Rsi tf val
        | none => e') e)).warmup_done = e.warmup_done := by
  induction tfs with
  | nil => intro e h; exact ⟨h, rfl, rfl, rfl, rfl⟩
  | cons tf rest ih =>
    intro e h
    have hm := manager_update_noready e.indicators now pair tf IndicatorName.Rsi bar h
    simp only [List.foldl_cons, hm.2.1]
    exact ih { e with indicators := (e.indicators.update now pair tf IndicatorName.Rsi bar).1 }
      hm.1

theorem vol_fold_quiet (tfs : List Timeframe) (lookup : IndexLookup) (pair : String)
    (bar : Kline) (now : Int) :
    ∀ (e : Engine), NoReadyCalcs e.indicators →
      NoReadyCalcs ((tfs.foldl (fun (e : Engine) tf =>
        let r := e.indicators.update now pair tf IndicatorName.Volatility bar
        let e' := { e with indicators := r.1 }
        match r.2.into_volatility_value with
        | some val => e'.push_result lookup pair IndicatorName.Volatility tf val
        | none => e') e)).indicators ∧
      ((tfs.foldl (fun (e : Engine) tf =>
        let r := e.indicators.update now pair tf IndicatorName.Volatility bar
        let e' := { e with indicators := r.1 }
        match r.2.into_volatility_value with
        | some val => e'.push_result lookup pair IndicatorName.Volatility tf val
        | none => e') e)).pending_results = e.pending_results ∧
      ((tfs.foldl (fun (e : Engine) tf =>
        let r := e.indicators.update now pair tf IndicatorName.Volatility bar
        let e' := { e with indicators := r.1 }
        match r.2.into_volatility_value with
        | some val => e'.push_result lookup pair IndicatorName.Volatility tf val
        | none => e') e)).config = e.config ∧
      ((tfs.foldl (fun (e : Engine) tf =>
        let r := e.indicators.update now pair tf IndicatorName.Volatility bar
        let e' := { e with indicators := r.1 }
        match r.2.into_volatility_value with
        | some val => e'.push_result lookup pair IndicatorName.Volatility tf val
        | none => e') e)).warmup_pending = e.warmup_pending ∧
      ((tfs.foldl (fun (e : Engine) tf =>
        let r := e.indicators.update now pair tf IndicatorName.Volatility bar
        let e' := { e with indicators := r.1 }
        match r.2.into_volatility_value with
        | some val => e'.push_result lookup pair IndicatorName.Volatility tf val
        | none => e') e)).warmup_done = e.warmup_done := by
  induction tfs with
  | nil => intro e h; exact ⟨h, rfl, rfl, rfl, rfl⟩
  | cons tf rest ih =>
    intro e h
    have hm := manager_update_noready e.indicators now pair tf IndicatorName.Volatility bar h
    simp only [List.foldl_cons, hm.2.2]
    exact ih { e with indicators :=
      (e.indicators.update now pair tf IndicatorName.Volatility bar).1 } hm.1

theorem handle_kline_quiet (e : Engine) (now : Int) (ev : KlineEvent)
    (hnr : NoReadyCalcs e.indicators) (hpend : e.pending_results = []) :
    NoReadyCalcs (e.handle_kline now ev).indicators ∧
    (e.handle_kline now ev).pending_results = [] ∧
    (e.handle_kline now ev).config = e.config ∧
    (e.handle_kline now ev).warmup_pending = e.warmup_pending ∧
    (e.handle_kline now ev).warmup_done = e.warmup_done := by
  unfold Engine.handle_kline
  cases hc : e.config with
  | none => exact ⟨hnr, hpend, hc, rfl, rfl⟩
  | some config =>
    simp only
    split
    · split
      · have h1 := rsi_fold_quiet config.indicators.rsi.timeframes config.index_lookup
          ev.pair ev.bar now e hnr
        have h2 := vol_fold_quiet config.indicators.volatility.timeframes config.index_lookup
          ev.pair ev.bar now _ h1.1
        refine ⟨h2.1, ?_, ?_, ?_, ?_⟩
        · rw [h2.2.1, h1.2.1]; exact hpend
        · rw [h2.2.2.1, h1.2.2.1]; exact hc
        · rw [h2.2.2.2.1, h1.2.2.2.1]
        · rw [h2.2.2.2.2, h1.2.2.2.2]
      · have h2 := vol_fold_quiet config.indicators.volatility.timeframes config.index_lookup
          ev.pair ev.bar now e hnr
        refine ⟨h2.1, ?_, ?_, ?_, ?_⟩
        · rw [h2.2.1]; exact hpend
        · rw [h2.2.2.1]; exact hc
        · rw [h2.2.2.2.1]
        · rw [h2.2.2.2.2]
    · split
      · have h1 := rsi_fold_quiet config.indicators.rsi.timeframes config.index_lookup
          ev.pair ev.bar now e hnr
        refine ⟨h1.1, ?_, ?_, ?_, ?_⟩
        · rw [h1.2.1]; exact hpend
        · rw [h1.2.2.1]; exact hc
        · rw [h1.2.2.2.1]
        · rw [h1.2.2.2.2]
      · exact ⟨hnr, hpend, hc, rfl, rfl⟩

theorem runFrom_cons_some (e e' : Engine) (i : EngineInput) (rest : List EngineInput)
    (out : List (List (Nat × IndicatorValue)))
    (h : e.step i = some (e', out)) :
    Engine.runFrom e (i :: rest) = (out ++ (e'.runFrom rest).1, (e'.runFrom rest).2) := by
  show (match e.step i with
    | none => ([], none)
    | some (e', out) =>
      let r := e'.runFrom rest
      (out ++ r.1, r.2)) = (out ++ (e'.runFrom rest).1, (e'.runFrom rest).2)
  rw [h]

theorem runFrom_cons_none (e : Engine) (i : EngineInput) (rest : List EngineInput)
    (h : e.step i = none) : Engine.runFrom e (i :: rest) = ([], none) := by
  show (match e.step i with
    | none => ([], none)
    | some (e', out) =>
      let r := e'.runFrom rest
      (out ++ r.1, r.2)) = ([], none)
  rw [h]

theorem step_tick_of_empty (e : Engine) (hpend : e.pending_results = []) :
    e.step EngineInput.tick = some (e, []) := by
  show (if e.config.isNone = true then some (e, [])
    else if e.pending_results.isEmpty = true then some (e, [])
    else some ({ e with pending_results := [] }, [e.pending_results])) = some (e, [])
  split
  · rfl
  · rw [if_pos (show e.pending_results.isEmpty = true by rw [hpend]; rfl)]

theorem noready_new : NoReadyCalcs IndicatorManager.new :=
  ⟨fun kv hkv => by simp [IndicatorManager.new] at hkv,
   fun kv hkv => by simp [IndicatorManager.new] at hkv⟩

theorem runFrom_quiet_nobundle (inputs : List EngineInput) :
    ∀ (e : Engine), NoReadyCalcs e.indicators → e.pending_results = [] →
      (∀ i ∈ inputs, isBundleInput i = false) →
      (Engine.runFrom e inputs).1 = [] := by
  induction inputs with
  | nil => intro e _ _ _; rfl
  | cons i rest ih =>
    intro e hnr hpend hnb
    have hnb' : ∀ j ∈ rest, isBundleInput j = false :=
      fun j hj => hnb j (List.mem_cons_of_mem _ hj)
    cases i with
    | tick =>
      rw [runFrom_cons_some e e EngineInput.tick rest [] (step_tick_of_empty e hpend)]
      simpa using ih e hnr hpend hnb'
    | msg now m =>
      cases m with
      | Reboot r =>
        rw [runFrom_cons_some e e.handle_reboot
          (EngineInput.msg now (EngineMessage.Reboot r)) rest [] rfl]
        have : (e.handle_reboot).pending_results = [] := hpend
        simpa using ih e.handle_reboot noready_new this hnb'
      | Config c =>
        have hstep : e.step (EngineInput.msg now (EngineMessage.Config c)) =
            some (({ e with config := some c }).handle_reboot, []) := rfl
        rw [runFrom_cons_some e _ _ rest [] hstep]
        have : (({ e with config := some c }).handle_reboot).pending_results = [] := hpend
        simpa using ih _ noready_new this hnb'
      | KHistBundle entries =>
        have := hnb _ (List.mem_cons_self _ _)
        simp [isBundleInput] at this
      | Kline ev =>
        have hres : ∃ e', e.step (EngineInput.msg now (EngineMessage.Kline ev)) = some (e', []) ∧
            NoReadyCalcs e'.indicators ∧ e'.pending_results = [] := by
          have hstepeq : e.step (EngineInput.msg now (EngineMessage.Kline ev)) =
              (if e.warmup_done then some (e.handle_kline now ev, [])
               else
                 match e.warmup_pending with
                 | none => some (e, [])
                 | some pending =>
                   if pending.contains ev.pair then
                     some (({ e with warmup_pending := some (pending.erase ev.pair), warmup_done := (pending.erase ev.pair).isEmpty }).handle_kline now ev, [])
                   else some (e.handle_kline now ev, [])) := rfl
          rw [hstepeq]
          by_cases hdone : e.warmup_done = true
          · rw [if_pos hdone]
            exact ⟨e.handle_kline now ev, rfl, (handle_kline_quiet e now ev hnr hpend).1,
              (handle_kline_quiet e now ev hnr hpend).2.1⟩
          · rw [if_neg hdone]
            cases hwp : e.warmup_pending with
            | none => exact ⟨e, rfl, hnr, hpend⟩
            | some pending =>
              by_cases hcp : pending.contains ev.pair = true
              all_goals
                show ∃ e', (if pending.contains ev.pair = true then
                    some (({ e with warmup_pending := some (pending.erase ev.pair), warmup_done := (pending.erase ev.pair).isEmpty }).handle_kline now ev, [])
                  else some (e.handle_kline now ev, [])) = some (e', []) ∧
                  NoReadyCalcs e'.indicators ∧ e'.pending_results = []
              · rw [if_pos hcp]
                exact ⟨_, rfl,
                  (handle_kline_quiet { e with warmup_pending := some (pending.erase ev.pair), warmup_done := (pending.erase ev.pair).isEmpty } now ev hnr hpend).1,
                  (handle_kline_quiet { e with warmup_pending := some (pending.erase ev.pair), warmup_done := (pending.erase ev.pair).isEmpty } now ev hnr hpend).2.1⟩
              · rw [if_neg hcp]
                exact ⟨e.handle_kline now ev, rfl, (handle_kline_quiet e now ev hnr hpend).1,
                  (handle_kline_quiet e now ev hnr hpend).2.1⟩
        obtain ⟨e', hstep, hnr', hpend'⟩ := hres
        rw [runFrom_cons_some e e' _ rest [] hstep]
        simpa using ih e' hnr' hpend' hnb'

theorem runFrom_quiet_nokline (inputs : List EngineInput) :
    ∀ (e : Engine), e.indicators.rsi = [] → e.indicators.vol = [] →
      e.pending_results = [] →
      (∀ i ∈ inputs, isKlineInput i = false) →
      (Engine.runFrom e inputs).1 = [] := by
  induction inputs with
  | nil => intro e _ _ _ _; rfl
  | cons i rest ih =>
    intro e hrsi hvol hpend hnk
    have hnk' : ∀ j ∈ rest, isKlineInput j = false :=
      fun j hj => hnk j (List.mem_cons_of_mem _ hj)
    cases i with
    | tick =>
      rw [runFrom_cons_some e e EngineInput.tick rest [] (step_tick_of_empty e hpend)]
      simpa using ih e hrsi hvol hpend hnk'
    | msg now m =>
      cases m with
      | Reboot r =>
        rw [runFrom_cons_some e e.handle_reboot
          (EngineInput.msg now (EngineMessage.Reboot r)) rest [] rfl]
        simpa using ih e.handle_reboot rfl rfl hpend hnk'
      | Config c =>
        have hstep : e.step (EngineInput.msg now (EngineMessage.Config c)) =
            some (({ e with config := some c }).handle_reboot, []) := rfl
        rw [runFrom_cons_some e _ _ rest [] hstep]
        simpa using ih (({ e with config := some c }).handle_reboot) rfl rfl hpend hnk'
      | Kline ev =>
        have := hnk _ (List.mem_cons_self _ _)
        simp [isKlineInput] at this
      | KHistBundle entries =>
        cases entries with
        | nil =>
          rw [runFrom_cons_some e e
            (EngineInput.msg now (EngineMessage.KHistBundle [])) rest [] rfl]
          simpa using ih e hrsi hvol hpend hnk'
        | cons k ks =>
          have hkh : e.indicators.update_khist now k = none := by
            unfold IndicatorManager.update_khist
            cases k.indicator <;> simp [hrsi, hvol, alookup]
          have hstep : e.step (EngineInput.msg now (EngineMessage.KHistBundle (k :: ks))) =
              none := by
            show (e.handle_khist_bundle now (k :: ks)).map (fun e' => (e', [])) = none
            unfold Engine.handle_khist_bundle
            rw [List.foldlM_cons, hkh]
            rfl
          rw [runFrom_cons_none e _ rest hstep]

theorem index_isSome_iff (l : IndexLookup) (p : String) (k : IndicatorKey) (tf : Timeframe) :
    (l.index p k tf).isSome ↔
      (alookup l.pair_to_id p).isSome ∧ (alookup l.slot_offsets (k, tf)).isSome := by
  unfold IndexLookup.index
  cases alookup l.pair_to_id p <;> cases alookup l.slot_offsets (k, tf) <;> simp

theorem index_eq_some (l : IndexLookup) (p : String) (k : IndicatorKey) (tf : Timeframe)
    (i : Nat) :
    l.index p k tf = some i ↔
      ∃ pid slot, alookup l.pair_to_id p = some pid ∧
        alookup l.slot_offsets (k, tf) = some slot ∧ i = pid * l.pair_stride + slot := by
  unfold IndexLookup.index
  cases alookup l.pair_to_id p <;> cases alookup l.slot_offsets (k, tf) <;> simp
  exact eq_comm

theorem slot_offsets_char (pairs : List String) (ve : Bool) (vtfs : List Timeframe)
    (re : Bool) (rtfs : List Timeframe) (k : IndicatorKey) (tf : Timeframe) :
    (alookup (IndexLookup.new pairs ve vtfs re rtfs).slot_offsets (k, tf)).isSome = true ↔
      (k = IndicatorKey.Volatility ∧ ve = true ∧ tf ∈ vtfs) ∨
      (k = IndicatorKey.Rsi ∧ re = true ∧ tf ∈ rtfs) := by
  cases ve <;> cases re <;> cases k <;>
    simp [IndexLookup.new, assignSlots_isSome, assignSlots_other, alookup]

theorem slot_offsets_bound (pairs : List String) (ve : Bool) (vtfs : List Timeframe)
    (re : Bool) (rtfs : List Timeframe) (k : IndicatorKey) (tf : Timeframe) (slot : Nat)
    (h : alookup (IndexLookup.new pairs ve vtfs re rtfs).slot_offsets (k, tf) = some slot) :
    slot < (IndexLookup.new pairs ve vtfs re rtfs).pair_stride := by
  have hmem := alookup_mem h
  cases ve <;> cases re <;> simp only [IndexLookup.new, if_true, if_false,
    Bool.false_eq_true, Bool.true_eq_false] at hmem ⊢
  · exact absurd hmem (by simp)
  · exact (assignSlots_bound IndicatorKey.Rsi rtfs ([], 0) (by simp)).1 _ hmem
  · exact (assignSlots_bound IndicatorKey.Volatility vtfs ([], 0) (by simp)).1 _ hmem
  · refine (assignSlots_bound IndicatorKey.Rsi rtfs _ ?_).1 _ hmem
    exact (assignSlots_bound IndicatorKey.Volatility vtfs ([], 0) (by simp)).1

theorem push_result_scrub (x : Engine) (il : IndexLookup) (p : String)
    (nm : IndicatorName) (tf : Timeframe) (v : ℚ) :
    (scrubEngine x).push_result il p nm tf v = scrubEngine (x.push_result il p nm tf v) := by
  obtain ⟨cfg, wp, wd, ind, pr⟩ := x
  cases nm with
  | Rsi =>
    simp only [Engine.push_result, scrubEngine]
    cases il.index p IndicatorKey.Rsi tf <;> rfl
  | Volatility =>
    simp only [Engine.push_result, scrubEngine]
    cases il.index p IndicatorKey.Volatility tf <;> rfl

theorem scrub_kline_step (now : Int) (pair : String) (nm : IndicatorName) (il : IndexLookup)
    (bar : Kline) (proj : IndicatorResult → Option ℚ) (x : Engine) (tf : Timeframe) :
    (let r := (scrubEngine x).indicators.update now pair tf nm bar
     let e' := { scrubEngine x with indicators := r.1 }
     match proj r.2 with
     | some val => e'.push_result il pair nm tf val
     | none => e') =
    scrubEngine (let r := x.indicators.update now pair tf nm bar
     let e' := { x with indicators := r.1 }
     match proj r.2 with
     | some val => e'.push_result il pair nm tf val
     | none => e') := by
  obtain ⟨cfg, wp, wd, ind, pr⟩ := x
  simp only [scrubEngine]
  cases hp : proj (ind.update now pair tf nm bar).2 with
  | none => rfl
  | some val =>
    exact push_result_scrub ⟨cfg, wp, wd, (ind.update now pair tf nm bar).1, pr⟩ il pair nm tf val

theorem scrub_foldl (F : Engine → Timeframe → Engine)
    (hF : ∀ x tf, F (scrubEngine x) tf = scrubEngine (F x tf)) (l : List Timeframe) :
    ∀ x : Engine, List.foldl F (scrubEngine x) l = scrubEngine (List.foldl F x l) := by
  induction l with
  | nil => intro x; rfl
  | cons a l ih =>
    intro x
    rw [List.foldl_cons, List.foldl_cons, hF]
    exact ih (F x a)

theorem scrub_two_folds (br bv : Bool) (Fr Fv : Engine → Timeframe → Engine)
    (hFr : ∀ x tf, Fr (scrubEngine x) tf = scrubEngine (Fr x tf))
    (hFv : ∀ x tf, Fv (scrubEngine x) tf = scrubEngine (Fv x tf))
    (rtfs vtfs : List Timeframe) (x : Engine) :
    (if bv = true then
        List.foldl Fv (if br = true then List.foldl Fr (scrubEngine x) rtfs else scrubEngine x) vtfs
      else if br = true then List.foldl Fr (scrubEngine x) rtfs else scrubEngine x) =
    scrubEngine (if bv = true then
        List.foldl Fv (if br = true then List.foldl Fr x rtfs else x) vtfs
      else if br = true then List.foldl Fr x rtfs else x) := by
  have h1 : (if br = true then List.foldl Fr (scrubEngine x) rtfs else scrubEngine x) =
      scrubEngine (if br = true then List.foldl Fr x rtfs else x) := by
    cases br
    · rfl
    · exact scrub_foldl Fr hFr rtfs x
  rw [h1]
  cases bv
  · rfl
  · exact scrub_foldl Fv hFv vtfs _

theorem handle_kline_scrub (e : Engine) (now : Int) (ev : KlineEvent) :
    (scrubEngine e).handle_kline now ev = scrubEngine (e.handle_kline now ev) := by
  obtain ⟨cfg, wp, wd, ind, pr⟩ := e
  cases cfg with
  | none => rfl
  | some c =>
    show Engine.handle_kline ⟨some (scrubConfig c), wp, wd, ind, pr⟩ now ev =
      scrubEngine (Engine.handle_kline ⟨some c, wp, wd, ind, pr⟩ now ev)
    simp only [Engine.handle_kline, scrubConfig]
    refine scrub_two_folds _ _ _ _ ?_ ?_ _ _ ⟨some c, wp, wd, ind, pr⟩
    · intro x tf
      exact scrub_kline_step now ev.pair IndicatorName.Rsi c.index_lookup ev.bar
        IndicatorResult.into_rsi_value x tf
    · intro x tf
      exact scrub_kline_step now ev.pair IndicatorName.Volatility c.index_lookup ev.bar
        IndicatorResult.into_volatility_value x tf

theorem handle_reboot_scrub (e : Engine) :
    (scrubEngine e).handle_reboot = scrubEngine e.handle_reboot := by
  obtain ⟨cfg, wp, wd, ind, pr⟩ := e
  cases cfg <;> rfl

theorem handle_khist_bundle_cons (e : Engine) (now : Int) (k : KlineHist) (ks : List KlineHist) :
    e.handle_khist_bundle now (k :: ks) =
      (e.indicators.update_khist now k).bind (fun m =>
        ({ e with indicators := m } : Engine).handle_khist_bundle now ks) := by
  show (k :: ks).foldlM (fun (e : Engine) khist =>
      (e.indicators.update_khist now khist).map fun m => { e with indicators := m }) e = _
  rw [List.foldlM_cons]
  cases e.indicators.update_khist now k <;> rfl

theorem handle_khist_scrub (now : Int) (entries : List KlineHist) :
    ∀ e : Engine, (scrubEngine e).handle_khist_bundle now entries =
      (e.handle_khist_bundle now entries).map scrubEngine := by
  induction entries with
  | nil => intro e; rfl
  | cons k ks ih =>
    intro e
    rw [handle_khist_bundle_cons, handle_khist_bundle_cons]
    have hind : (scrubEngine e).indicators = e.indicators := rfl
    rw [hind]
    cases hk : e.indicators.update_khist now k with
    | none => rfl
    | some m =>
      show ({ scrubEngine e with indicators := m } : Engine).handle_khist_bundle now ks =
        (({ e with indicators := m } : Engine).handle_khist_bundle now ks).map scrubEngine
      exact ih { e with indicators := m }

theorem step_scrub (e : Engine) (i : EngineInput) :
    (scrubEngine e).step (scrubInput i) = (e.step i).map (fun p => (scrubEngine p.1, p.2)) := by
  obtain ⟨cfg, wp, wd, ind, pr⟩ := e
  cases i with
  | tick => cases cfg <;> cases pr <;> rfl
  | msg now m =>
    cases m with
    | Reboot r =>
      show some ((scrubEngine ⟨cfg, wp, wd, ind, pr⟩).handle_reboot, []) =
        some (scrubEngine (Engine.handle_reboot ⟨cfg, wp, wd, ind, pr⟩), [])
      rw [handle_reboot_scrub]
    | Config c =>
      show some ((scrubEngine ⟨some c, wp, wd, ind, pr⟩).handle_reboot, []) =
        some (scrubEngine (Engine.handle_reboot ⟨some c, wp, wd, ind, pr⟩), [])
      rw [handle_reboot_scrub]
    | KHistBundle entries =>
      show ((scrubEngine ⟨cfg, wp, wd, ind, pr⟩).handle_khist_bundle now entries).map
          (fun e' => (e', [])) =
        ((Engine.handle_khist_bundle ⟨cfg, wp, wd, ind, pr⟩ now entries).map
          (fun e' => (e', []))).map (fun p => (scrubEngine p.1, p.2))
      rw [handle_khist_scrub]
      cases Engine.handle_khist_bundle ⟨cfg, wp, wd, ind, pr⟩ now entries <;> rfl
    | Kline ev =>
      cases wd with
      | true =>
        show some ((scrubEngine ⟨cfg, wp, true, ind, pr⟩).handle_kline now ev, []) =
          some (scrubEngine (Engine.handle_kline ⟨cfg, wp, true, ind, pr⟩ now ev), [])
        rw [handle_kline_scrub]
      | false =>
        cases wp with
        | none => rfl
        | some pending =>
          show (if pending.contains ev.pair = true then
              some ((scrubEngine ⟨cfg, some (pending.erase ev.pair),
                (pending.erase ev.pair).isEmpty, ind, pr⟩).handle_kline now ev, [])
            else some ((scrubEngine ⟨cfg, some pending, false, ind, pr⟩).handle_kline now ev, [])) =
            ((if pending.contains ev.pair = true then
              some ((⟨cfg, some (pending.erase ev.pair),
                (pending.erase ev.pair).isEmpty, ind, pr⟩ : Engine).handle_kline now ev, [])
            else some ((⟨cfg, some pending, false, ind, pr⟩ : Engine).handle_kline now ev,
              []))).map (fun p => (scrubEngine p.1, p.2))
          by_cases hc : pending.contains ev.pair = true
          · rw [if_pos hc, if_pos hc, handle_kline_scrub]
            rfl
          · rw [if_neg hc, if_neg hc, handle_kline_scrub]
            rfl

theorem runFrom_scrub (inputs : List EngineInput) :
    ∀ e : Engine, Engine.runFrom (scrubEngine e) (inputs.map scrubInput) =
      ((Engine.runFrom e inputs).1, (Engine.runFrom e inputs).2.map scrubEngine) := by
  induction inputs with
  | nil => intro e; rfl
  | cons i rest ih =>
    intro e
    cases hs : e.step i with
    | none =>
      have hs' : (scrubEngine e).step (scrubInput i) = none := by
        rw [step_scrub, hs]; rfl
      rw [List.map_cons, runFrom_cons_none _ _ _ hs', runFrom_cons_none _ _ _ hs]
      rfl
    | some p =>
      obtain ⟨e', out⟩ := p
      have hs' : (scrubEngine e).step (scrubInput i) = some (scrubEngine e', out) := by
        rw [step_scrub, hs]; rfl
      rw [List.map_cons, runFrom_cons_some _ _ _ _ _ hs', runFrom_cons_some _ _ _ _ _ hs, ih e']

theorem scrub_from_settings (s s' : SettingsForm) (h : SettingsExceptRsiExtras s s') :
    scrubConfig (AppConfig.from_settings s) = scrubConfig (AppConfig.from_settings s') := by
  obtain ⟨hp, hv, hvt, hr, hrt⟩ := h
  simp only [AppConfig.from_settings, scrubConfig, hp, hv, hvt, hr, hrt]

/-! ## Claim theorems -/

/-- C2: the claim says a history-bundle entry whose (pair, timeframe,
indicator) key has no calculator instance is ignored with engine state
unchanged and no error or abort.  The code instead calls
`.get_mut(&key).unwrap()`, which panics: on a fresh registry (exactly
the state right after a Reboot) the lookup fails and
`IndicatorManager::update_khist` aborts, modelled as `none`; the engine
step handling such a bundle aborts as well. -/
theorem C2_update_khist_panics_on_missing_key :
    IndicatorManager.new.update_khist 0 orphanHist = none ∧
    Engine.step { Engine.new with config := some cfgXY }
      (EngineInput.msg 0 (EngineMessage.KHistBundle [orphanHist])) = none :=
  ⟨rfl, rfl⟩

/-- C1 (counterexample): with pairs X and Y configured, a live X bar,
X's warmup bundle, another X bar and a flush tick produce a batch on
the presentation sink (one entry) while pair Y is still in the
pending-warmup set and `warmup_done` is false — Y has received no live
bar and no bundle, contradicting the all-pairs gating of the claim. -/
theorem C1_counterexample :
    (Engine.runFrom Engine.new inputsC1).1.map List.length = [1] ∧
    (Engine.runFrom Engine.new inputsC1).2.map
      (fun e => (e.warmup_pending, e.warmup_done)) = some (some ["Y"], false) :=
  ⟨rfl, rfl⟩

/-- C1 (amended): any batch emitted on the presentation sink over a run
from the freshly created engine requires at least one live bar input
and at least one history-bundle input in the run; the per-pair gating
of the original claim is refuted by `C1_counterexample`. -/
theorem C1_amended_gating (inputs : List EngineInput)
    (h : (Engine.runFrom Engine.new inputs).1 ≠ []) :
    (∃ i ∈ inputs, isKlineInput i = true) ∧ (∃ i ∈ inputs, isBundleInput i = true) := by
  constructor
  · by_contra hno
    push_neg at hno
    have hall : ∀ i ∈ inputs, isKlineInput i = false := fun i hi => by
      cases hk : isKlineInput i with
      | false => rfl
      | true => exact absurd hk (hno i hi)
    exact h (runFrom_quiet_nokline inputs Engine.new rfl rfl rfl hall)
  · by_contra hno
    push_neg at hno
    have hall : ∀ i ∈ inputs, isBundleInput i = false := fun i hi => by
      cases hk : isBundleInput i with
      | false => rfl
      | true => exact absurd hk (hno i hi)
    exact h (runFrom_quiet_nobundle inputs Engine.new noready_new rfl hall)

/-- C1 (witness for the amended theorem): the C1 scenario emits a batch,
and indeed contains a live-bar input and a bundle input. -/
theorem C1_amended_witness :
    (∃ i ∈ inputsC1, isKlineInput i = true) ∧ (∃ i ∈ inputsC1, isBundleInput i = true) :=
  C1_amended_gating inputsC1 (by
    intro hemp
    have h1 : (Engine.runFrom Engine.new inputsC1).1.length = 1 := rfl
    rw [hemp] at h1
    simp at h1)

/-- C3 (counterexample): priming an RSI and a volatility calculator of
timeframe 5m from the same inputs (now = 0, empty warmup buffer, the
same 1m history) yields different windows: RSI takes the five
open-times of the current 5m period `[0, 240000]`, volatility takes the
trailing five open-times `[-240000, 0]` ending at the current 1m start. -/
theorem C3_counterexample :
    ((Rsi.new 14 Timeframe.M5 "X").set_window_1m_bars_from_history 0 khC3).window_1m_bars.map
      (fun w => w.buffer.map (fun b => b.open_time)) = some [0, 60000, 120000, 180000, 240000] ∧
    ((Volatility.new Timeframe.M5 "X").update_khist 0 khC3).window_1m_bars.map
      (fun w => w.buffer.map (fun b => b.open_time)) = some [-240000, -180000, -120000, -60000, 0] :=
  ⟨rfl, rfl⟩

/-- C3 (amended): both primers prefer a warmup-buffer bar over the
historical bar with the same open-time and skip open-times present in
neither, but from the same inputs they agree exactly when `now` lies in
the final minute of its timeframe period
(`floor_1m(now) = floor_T(now) + (T_minutes − 1)·60000`): RSI anchors
its `T` expected open-times at `floor_T(now)`, Volatility ends them at
`floor_1m(now)`. -/
theorem C3_amended_priming_windows (now : Int) (sr : Rsi) (sv : Volatility) (kh : KlineHist)
    (hbuf : sr.buffer = sv.buffer)
    (halign : Timeframe.M1.nearest_ms now = kh.indicator_tf.nearest_ms now +
      ((kh.indicator_tf.window_minutes : Int) - 1) * Timeframe.M1.window_millis) :
    (sr.set_window_1m_bars_from_history now kh).window_1m_bars =
      (sv.update_khist now kh).window_1m_bars := by
  rw [rsi_set_window_hist_window, vol_update_khist_window]
  have hstart : Timeframe.M1.nearest_ms now -
      ((kh.indicator_tf.window_minutes : Int) - 1) * Timeframe.M1.window_millis =
      kh.indicator_tf.nearest_ms now := by
    rw [halign]
    ring
  simp only [hstart, hbuf]

/-- C3 (witness for the amended theorem): priming at `now = 240000`
(the final minute of its 5m period) makes the two reconstructions
agree. -/
theorem C3_amended_witness :
    ((Rsi.new 14 Timeframe.M5 "X").set_window_1m_bars_from_history 240000 khC3).window_1m_bars =
      ((Volatility.new Timeframe.M5 "X").update_khist 240000 khC3).window_1m_bars :=
  C3_amended_priming_windows 240000 (Rsi.new 14 Timeframe.M5 "X")
    (Volatility.new Timeframe.M5 "X") khC3 rfl (by decide)

/-- C4 (counterexample): a Ready volatility calculator of timeframe 5m
fed six 1m bars with non-decreasing open times keeps the bar with
open-time 60000 in its window after the update at 300000, although the
current 5m period start is 300000 — `Volatility::update_window` never
trims bars of earlier periods, so the containment part of the claim
fails for volatility calculators. -/
theorem C4_counterexample :
    ((volFresh.feedLive barsAcrossBoundary).1.window_1m_bars.map
      (fun w => w.buffer.map (fun b => b.open_time))) =
      some [60000, 120000, 180000, 240000, 300000] ∧
    Timeframe.M5.nearest_ms 300000 = 300000 :=
  ⟨rfl, rfl⟩

/-- C5 (counterexample): with the duplicate pair list ["A", "A", "B"]
and only Volatility/1m enabled, pair B keeps its first-occurrence id 2
while `pair_count` (distinct pairs) is 2 and the stride is 1, so the
returned index 2 violates the claimed bound
`i < pair_count × pair_stride = 2`. -/
theorem C5_counterexample :
    dupLookup.index "B" IndicatorKey.Volatility Timeframe.M1 = some 2 ∧
    dupLookup.pair_count = 2 ∧
    dupLookup.pair_stride = 1 ∧
    ¬ (2 < dupLookup.pair_count * dupLookup.pair_stride) :=
  ⟨rfl, rfl, rfl, by decide⟩

/-- C4 (amended): for every Ready-stage RSI calculator of timeframe T
starting from a fresh window of capacity T-in-minutes, after each update
over a sequence of live 1m bars with monotonically non-decreasing
nonnegative open times (each update made at the bar's open time, the
arrival time of a live bar), the window has length at most T-in-minutes
and contains only bars whose open_time lies in
`[floor_T(now), floor_T(now) + T)`, where `now` is the open time of the
latest bar.  The volatility window satisfies the length bound but not
the containment (see the counterexample): the claim is amended to RSI
calculators. -/
theorem C4_amended_window_invariant (tf : Timeframe) (s : Rsi) (bars : List Kline)
    (hst : s.stage = Stage.Ready) (htf : s.tf = tf)
    (hw : s.window_1m_bars = some (RingBuffer.new Kline tf.window_minutes))
    (hchain : List.Chain' (· ≤ ·) (bars.map (fun b => b.open_time)))
    (hnn : ∀ b ∈ bars, 0 ≤ b.open_time) :
    ∀ pre suf, bars = pre ++ suf → ∀ lastb, pre.getLast? = some lastb →
      ∃ w', ((s.feedLive pre).1).window_1m_bars = some w' ∧
        w'.buffer.length ≤ tf.window_minutes ∧
        ∀ y ∈ w'.buffer, tf.nearest_ms lastb.open_time ≤ y.open_time ∧
          y.open_time < tf.nearest_ms lastb.open_time + tf.window_millis := by
  intro pre suf hsplit lastb hlast
  subst htf
  cases pre with
  | nil => simp at hlast
  | cons p0 rest =>
    have hnn' : ∀ b ∈ p0 :: rest, 0 ≤ b.open_time := by
      intro x hx
      exact hnn x (by rw [hsplit]; exact List.mem_append.mpr (Or.inl hx))
    have hp0 : 0 ≤ p0.open_time := hnn' p0 (List.mem_cons_self _ _)
    have hchainpre : List.Chain' (· ≤ ·) ((p0 :: rest).map (fun b => b.open_time)) := by
      rw [hsplit, List.map_append] at hchain
      exact ((List.chain'_append).mp hchain).1
    have hchain' : List.Chain' (· ≤ ·)
        (p0.open_time :: (p0 :: rest).map (fun b => b.open_time)) := by
      rw [List.map_cons]
      exact List.Chain'.cons (le_refl _) (by rw [List.map_cons] at hchainpre; exact hchainpre)
    have hcapinit : (RingBuffer.new Kline s.tf.window_minutes).capacity = s.tf.window_minutes := by
      show max s.tf.window_minutes 1 = s.tf.window_minutes
      exact Nat.max_eq_left (window_minutes_pos s.tf)
    obtain ⟨w', hw', _, _, _, hlen', _, hbnd'⟩ :=
      rsi_feed_inv (p0 :: rest) s (RingBuffer.new Kline s.tf.window_minutes) p0.open_time
        hst hw hcapinit (by show (0 : Nat) ≤ _; exact Nat.zero_le _)
        List.Pairwise.nil
        (by intro y hy; simp [RingBuffer.new] at hy)
        hp0 hchain' hnn'
    have hlastopen : ((p0 :: rest).map (fun b => b.open_time)).getLastD p0.open_time =
        lastb.open_time := by
      rw [List.getLastD_eq_getLast?, List.getLast?_map, hlast]
      rfl
    rw [hlastopen] at hbnd'
    exact ⟨w', hw', hlen', hbnd'⟩

/-- C4 (witness for the amended theorem): two live 1m bars fed to a
fresh Ready 5m RSI calculator. -/
theorem C4_amended_witness :
    ∃ w', ((rsiFresh.feedLive [constBar 0 1, constBar 60000 1]).1).window_1m_bars = some w' ∧
      w'.buffer.length ≤ Timeframe.M5.window_minutes ∧
      ∀ y ∈ w'.buffer, Timeframe.M5.nearest_ms (constBar 60000 1).open_time ≤ y.open_time ∧
        y.open_time < Timeframe.M5.nearest_ms (constBar 60000 1).open_time +
          Timeframe.M5.window_millis :=
  C4_amended_window_invariant Timeframe.M5 rsiFresh [constBar 0 1, constBar 60000 1]
    rfl rfl rfl
    (by norm_num [constBar, List.chain'_cons, List.chain'_singleton])
    (by intro b hb; rcases List.mem_cons.mp hb with rfl | hb
        · norm_num [constBar]
        · obtain rfl : b = constBar 60000 1 := by simpa using hb
          norm_num [constBar])
    [constBar 0 1, constBar 60000 1] [] rfl (constBar 60000 1) rfl

/-- C5 (amended): `IndexLookup.index(pair, kind, tf)` returns `Some`
iff the kind is enabled, the timeframe is listed for it and the pair is
in the configured pair list (as claimed); but the correct general bound
on a returned index is `i < (length of the configured pair list,
duplicates counted) × pair_stride`.  The claimed bound with
`pair_count` (the number of distinct pairs) fails when the pair list
contains duplicates, because a pair keeps the enumeration index of its
first occurrence. -/
theorem C5_amended_index_lookup (pairs : List String) (ve : Bool) (vtfs : List Timeframe)
    (re : Bool) (rtfs : List Timeframe) (p : String) (k : IndicatorKey) (tf : Timeframe) :
    (((IndexLookup.new pairs ve vtfs re rtfs).index p k tf).isSome ↔
      p ∈ pairs ∧
        ((k = IndicatorKey.Volatility ∧ ve = true ∧ tf ∈ vtfs) ∨
         (k = IndicatorKey.Rsi ∧ re = true ∧ tf ∈ rtfs))) ∧
    ∀ i, (IndexLookup.new pairs ve vtfs re rtfs).index p k tf = some i →
      i < pairs.length * (IndexLookup.new pairs ve vtfs re rtfs).pair_stride := by
  constructor
  · rw [index_isSome_iff,
      show (IndexLookup.new pairs ve vtfs re rtfs).pair_to_id = buildPairToId pairs from rfl,
      buildPairToId_isSome, slot_offsets_char]
  · intro i hi
    obtain ⟨pid, slot, hpid, hslot, hi'⟩ := (index_eq_some _ p k tf i).mp hi
    have h1 : pid < pairs.length := buildPairToId_bound pairs p pid hpid
    have h2 : slot < (IndexLookup.new pairs ve vtfs re rtfs).pair_stride :=
      slot_offsets_bound pairs ve vtfs re rtfs k tf slot hslot
    subst hi'
    calc pid * (IndexLookup.new pairs ve vtfs re rtfs).pair_stride + slot
        < (pid + 1) * (IndexLookup.new pairs ve vtfs re rtfs).pair_stride := by
          rw [Nat.succ_mul]; omega
      _ ≤ pairs.length * (IndexLookup.new pairs ve vtfs re rtfs).pair_stride :=
          Nat.mul_le_mul_right _ h1

/-- C5 (witness for the amended theorem): the duplicate-pair lookup
satisfies the corrected bound. -/
theorem C5_amended_witness : (2 : Nat) < 3 * dupLookup.pair_stride :=
  (C5_amended_index_lookup ["A", "A", "B"] true [Timeframe.M1] false [] "B"
    IndicatorKey.Volatility Timeframe.M1).2 2 rfl

/-- C6 (counterexample): on a window whose only bar has
`open == close == 1`, `high == 2`, `low == 1` and no closed aggregate,
the code emits −100 (its sign test is the strict `open < close`), while
the claim's formula with `sign = +1 if close ≥ open` yields +100. -/
theorem C6_counterexample :
    volTie.set_value.value = some (-100) ∧
    volatilityValueSpec none
      { open_ := 1, high := 2, low := 1, close := 1, volume := 0,
        open_time := 0, closed := false } = 100 := by
  constructor
  · simp [volTie, Volatility.set_value, RingBuffer.back, trunc4, truncQ]
    norm_num
    rw [show ((-1000000 : ℚ)) = ((-1000000 : Int) : ℚ) by norm_num, Int.ceil_intCast]
    norm_num
  · simp [volatilityValueSpec, trunc4, truncQ]
    norm_num

/-- C6 (amended): the emitted volatility value matches the claimed
formula with one correction: in the no-aggregate branch the sign is +1
exactly when `last.open < last.close` (strict), so an unchanged bar
(`close == open`) emits a negative percent; the aggregate branch is as
claimed (`sign = +1 iff aggr.high_ts > aggr.low_ts`). -/
theorem C6_amended_emission (s : Volatility) (w : RingBuffer Kline) (last : Kline)
    (hw : s.window_1m_bars = some w) (hlast : w.back = some last) :
    s.set_value.value = some (volatilityValueAmended s.aggr_closed_bars last) := by
  unfold Volatility.set_value
  rw [hw]
  simp only [hlast]
  cases h : s.aggr_closed_bars with
  | none => simp [volatilityValueAmended]
  | some a => simp [volatilityValueAmended, max_def, min_def]

/-- C6 (witness for the amended theorem): the amended formula evaluated
on the tie-bar state. -/
theorem C6_amended_witness :
    volTie.set_value.value = some (volatilityValueAmended none
      { open_ := 1, high := 2, low := 1, close := 1, volume := 0,
        open_time := 0, closed := false }) :=
  C6_amended_emission volTie _ _ rfl rfl

/-- C7 (counterexample): the Ready RSI window of `rsiClosedTail` has
the closed bar `constBar 0 5` as its tail; feeding a bar with the same
open time replaces the tail with the new bar (close 7 instead of 5),
although the claim says an equal-timestamp bar is dropped when the tail
is already closed. -/
theorem C7_counterexample :
    rsiClosedTail.window_1m_bars = some ⟨[constBar 0 5], 5⟩ ∧
    (constBar 0 5).closed = true ∧
    (rsiClosedTail.update_window 0 (constBar 0 7)).window_1m_bars = some ⟨[constBar 0 7], 5⟩ ∧
    (constBar 0 7).close ≠ (constBar 0 5).close := by
  refine ⟨rfl, rfl, rfl, ?_⟩
  simp [constBar]

/-- C7 (amended): the "replace only when the tail is still open" rule
holds for the volatility window update and for both pre-warmup buffers,
but `Rsi::update_window` replaces the tail on an equal open time
unconditionally, even when the tail is already closed. -/
theorem C7_amended_equal_timestamp_rules :
    (∀ (s : Volatility) (w : RingBuffer Kline) (last bar : Kline) (now : Int),
      s.window_1m_bars = some w → w.back = some last → last.open_time = bar.open_time →
      last.closed = true → s.update_window now bar = s) ∧
    (∀ (s : Volatility) (w : RingBuffer Kline) (last bar : Kline) (now : Int),
      s.window_1m_bars = some w → w.back = some last → last.open_time = bar.open_time →
      last.closed = false →
      (s.update_window now bar).window_1m_bars = some (w.replace_last bar)) ∧
    (∀ (s : Rsi) (w : RingBuffer Kline) (last bar : Kline) (now : Int),
      s.window_1m_bars = some w → w.back = some last → last.open_time = bar.open_time →
      (s.update_window now bar).window_1m_bars = some (w.replace_last bar)) ∧
    (∀ (s : Rsi) (last bar : Kline), s.buffer.back = some last →
      last.open_time = bar.open_time → last.closed = true → s.update_buffer bar = s) ∧
    (∀ (s : Volatility) (last bar : Kline), s.buffer.back = some last →
      last.open_time = bar.open_time → last.closed = true → s.update_buffer bar = s) := by
  refine ⟨?_, ?_, ?_, ?_, ?_⟩
  · intro s w last bar now hw hb he hc
    unfold Volatility.update_window
    rw [hw]
    simp [hb, he, hc]
  · intro s w last bar now hw hb he hc
    unfold Volatility.update_window
    rw [hw]
    simp [hb, he, hc]
  · intro s w last bar now hw hb he
    unfold Rsi.update_window
    rw [hw]
    simp [hb, he]
  · intro s last bar hb he hc
    unfold Rsi.update_buffer
    rw [hb]
    simp [he, hc]
  · intro s last bar hb he hc
    unfold Volatility.update_buffer
    rw [hb]
    simp [he, hc]


/-- C8: for every well-formed RSI calculator (period at least 1,
nonnegative stored Wilder averages, stored value in range — all true of
the engine-created `Rsi::new(14, …)`), both live updates and priming
preserve well-formedness, every emitted value lies in [0, 100], and a
Ready-stage update that has both a window tail and previous-period
state emits exactly the claimed formula: one Wilder step with
`gain = max(diff, 0)`, `loss = max(−diff, 0)`, then `100` when the
smoothed loss is 0 and `100 − 100/(1 + gain/loss)` otherwise. -/
theorem C8_rsi_emission (s : Rsi) (now : Int) (bar : Kline) (kh : KlineHist)
    (hgood : RsiGood s) :
    RsiGood (s.update now bar).1 ∧
    RsiGood (s.update_khist now kh) ∧
    (∀ v, (s.update now bar).2 = some v → 0 ≤ v ∧ v ≤ 100) ∧
    (s.stage = Stage.Ready →
      ∀ w last prev, (s.update_window now bar).window_1m_bars = some w →
        w.back = some last → (s.update_window now bar).previous_bar = some prev →
        (s.update now bar).2 = some (rsiValueSpec (s.period : ℚ) prev last)) := by
  refine ⟨(rsi_update_good s now bar hgood).1, rsi_update_khist_good s now kh hgood,
    (rsi_update_good s now bar hgood).2, ?_⟩
  intro hst w last prev hw hb hp
  have hout : (s.update now bar).2 = ((s.update_window now bar).set_value).value := by
    simp only [Rsi.update, hst]
  rw [hout, set_value_spec _ w last prev hw hb hp, (update_window_keeps s now bar).2.2.1]

/-- C8 (witness): a fresh period-14 calculator stays well-formed after
one live bar. -/
theorem C8_witness : RsiGood ((Rsi.new 14 Timeframe.M1 "X").update 0 barX).1 :=
  (C8_rsi_emission (Rsi.new 14 Timeframe.M1 "X") 0 barX orphanHist
    ⟨by decide, fun pb h => Option.noConfusion h, fun v h => Option.noConfusion h⟩).1

/-- C9: when an RSI calculator that has never been successfully primed
(no previous-period state, no value) is primed from a bundle whose
same-TF history holds fewer than P+1 closes of strictly prior periods
(bars with `open_time ≤ floor_T(now) − T`), the previous-period state
stays empty, the value stays undefined, the stage still becomes Ready,
and every subsequent live update returns no output (and preserves the
unprimed state) until a later successful prime. -/
theorem C9_insufficient_history_keeps_rsi_silent (s : Rsi) (now : Int) (kh : KlineHist)
    (h : RsiUnprimed s)
    (hcount : (priorCloses now kh).length < s.period + 1) :
    RsiUnprimed (s.update_khist now kh) ∧
    (s.update_khist now kh).stage = Stage.Ready ∧
    ∀ bars, RsiUnprimed ((s.update_khist now kh).feedLive bars).1 ∧
      ∀ o ∈ ((s.update_khist now kh).feedLive bars).2, o = none := by
  have h1 := rsi_update_khist_unprimed s now kh h.2 hcount
  refine ⟨h1.1, h1.2, ?_⟩
  intro bars
  exact rsi_feedLive_unprimed bars _ h1.1

/-- C9 (witness): a fresh period-14 calculator primed from an empty
same-TF history stays unprimed. -/
theorem C9_witness :
    RsiUnprimed ((Rsi.new 14 Timeframe.M1 "X").update_khist 0 orphanHist) :=
  (C9_insufficient_history_keeps_rsi_silent (Rsi.new 14 Timeframe.M1 "X") 0 orphanHist
    ⟨rfl, rfl⟩ (by decide)).1

/-- C7 (witness for the amended theorem): the volatility rule and the
RSI exception applied at concrete states. -/
theorem C7_amended_witness :
    (rsiClosedTail.update_window 0 (constBar 0 7)).window_1m_bars =
      some ((⟨[constBar 0 5], 5⟩ : RingBuffer Kline).replace_last (constBar 0 7)) :=
  C7_amended_equal_timestamp_rules.2.2.1 rsiClosedTail _ _ _ 0 rfl rfl rfl

/-- C10: the configured RSI length and source never influence the
engine's outputs.  Two input sequences that are identical except for
the RSI length and source carried inside `Config` messages (i.e. that
scrub to the same sequence) drive the engine to the same emitted
batches, and panic at the same point: the engine constructs every RSI
calculator as `Rsi::new(14, …)` and never reads those two config
fields. -/
theorem C10_rsi_config_extras_inert (inputs inputs' : List EngineInput)
    (h : inputs.map scrubInput = inputs'.map scrubInput) :
    (Engine.runFrom Engine.new inputs).1 = (Engine.runFrom Engine.new inputs').1 ∧
    (Engine.runFrom Engine.new inputs).2.isSome =
      (Engine.runFrom Engine.new inputs').2.isSome := by
  have h1 := runFrom_scrub inputs Engine.new
  have h2 := runFrom_scrub inputs' Engine.new
  have hnew : scrubEngine Engine.new = Engine.new := rfl
  rw [hnew] at h1 h2
  rw [h] at h1
  have hpair := h1.symm.trans h2
  injection hpair with hfst hsnd
  refine ⟨hfst, ?_⟩
  cases ha : (Engine.runFrom Engine.new inputs).2 <;>
    cases hb : (Engine.runFrom Engine.new inputs').2 <;>
      rw [ha, hb] at hsnd <;> simp_all

/-- C10 (witness): the C10 scenario run twice, once with RSI length 14
and source Close and once with length 99 and source Open, emits the
same batches and ends without a panic in both runs. -/
theorem C10_witness :
    (Engine.runFrom Engine.new inputsC10).1 = (Engine.runFrom Engine.new inputsC10alt).1 ∧
    (Engine.runFrom Engine.new inputsC10).2.isSome =
      (Engine.runFrom Engine.new inputsC10alt).2.isSome :=
  C10_rsi_config_extras_inert inputsC10 inputsC10alt rfl

end TheGrid
